import Mathlib

/-!
Verification development for the togglsync repository.

This file gives a shallow embedding of the synchronization core of the
repository (src/sync/models.py, src/sync/services/resolver.py,
src/sync/services/gcal.py, src/sync/tasks.py, src/sync/views.py,
src/sync/utils.py) and proves properties of it.  Machine time is modelled in
seconds as rational numbers; Django querysets are modelled as lists read in
database order; Python truthiness of optional integers and strings is made
explicit through the helpers below.
-/

namespace TogglSync

/-- Truthiness of an optional integer: Python treats both None and 0 as falsy. -/
def truthyInt : Option Int → Option Int
  | some x => if x = 0 then none else some x
  | none => none

/-- Truthiness of an optional string: Python treats both None and the empty
string as falsy. -/
def truthyStr : Option String → Option String
  | some s => if s = "" then none else some s
  | none => none

/-- Cached Toggl project row (sync.models.TogglProject), fields the core reads. -/
structure TogglProject where
  toggl_id : Int
  name : String
deriving DecidableEq, Repr

/-- Cached Toggl tag row (sync.models.TogglTag), fields the core reads. -/
structure TogglTag where
  toggl_id : Int
  name : String
deriving DecidableEq, Repr

/-- Cached Toggl workspace row (sync.models.TogglWorkspace), fields the
resolver reads; organization_id is the foreign key to TogglOrganization. -/
structure TogglWorkspace where
  toggl_id : Int
  organization_id : Option Int
deriving DecidableEq, Repr

/-- Google calendar row (sync.models.GoogleCal).  The field dbid is the
database primary key, calendar_id the Google identifier. -/
structure GoogleCal where
  dbid : Nat
  calendar_id : String
  name : String
  is_default : Bool
deriving DecidableEq, Repr

/-- Local time entry row (sync.models.TogglTimeEntry).  Timestamps are in
seconds; end_time none means the timer is still running. -/
structure TogglTimeEntry where
  toggl_id : Int
  description : String
  start_time : Rat
  end_time : Option Rat
  project_id : Option Int
  tag_ids : List Int
  calendar : Option GoogleCal
  synced : Bool
  pending_deletion : Bool
  updated_at : Rat
deriving DecidableEq, Repr

/-- Stable external key of the Google event, property
TogglTimeEntry.gcal_event_id in src/sync/models.py: the literal string toggl
followed by the Toggl id. -/
def TogglTimeEntry.gcal_event_id (e : TogglTimeEntry) : String :=
  "toggl" ++ toString e.toggl_id

/-- Per-user cached Toggl metadata queried by get_gcal_data. -/
structure MetaDB where
  projects : List TogglProject
  tags : List TogglTag
deriving DecidableEq, Repr

/-- Rendered event data, the return value of TogglTimeEntry.get_gcal_data. -/
structure GcalData where
  event_id : String
  summary : String
  start : Rat
  end_ : Rat
  description : String
  color_id : Option String
deriving DecidableEq, Repr

/-- Embeds TogglTimeEntry.get_gcal_data (src/sync/models.py lines 235-294):
build the event description from the entry id, project name and tag names,
compute the end time (end_time if present, else start plus one minute), force
the grey running color "8" for entries with no end time, and fall back to the
placeholder summary for an empty description. -/
def get_gcal_data (db : MetaDB) (e : TogglTimeEntry) (color_id : Option String) :
    GcalData :=
  let project_name : Option String :=
    match truthyInt e.project_id with
    | some p => (db.projects.find? (fun pr => pr.toggl_id == p)).map
        (fun pr => pr.name)
    | none => none
  let tag_names : List String :=
    if e.tag_ids.isEmpty then []
    else (db.tags.filter (fun t => e.tag_ids.contains t.toggl_id)).map
      (fun t => t.name)
  let desc_lines : List String :=
    ["Toggl Entry: " ++ toString e.toggl_id]
      ++ (match project_name with
          | some n => ["Project: " ++ n]
          | none => [])
      ++ (if tag_names.isEmpty then []
          else ["Tags: " ++ String.intercalate ", " tag_names])
  let event_description := String.intercalate "\n" desc_lines
  let start := e.start_time
  let endv : Rat :=
    match e.end_time with
    | some t => t
    | none => start + 60
  let event_color_id : Option String :=
    match e.end_time with
    | none => some "8"
    | some _ => color_id
  let summary := if e.description = "" then "(No description)" else e.description
  { event_id := e.gcal_event_id
    summary := summary
    start := start
    end_ := endv
    description := event_description
    color_id := event_color_id }

/-- Entity kinds of a calendar mapping (EntityToCalMapping.EntityType). -/
inductive EntityType
  | tag
  | project
  | workspace
  | organization
deriving DecidableEq, Repr

/-- The eleven selectable mapping colors (EntityToCalMapping.color_name
choices). -/
inductive ColorName
  | Lavender
  | Sage
  | Grape
  | Flamingo
  | Banana
  | Tangerine
  | Peacock
  | Graphite
  | Blueberry
  | Basil
  | Tomato
deriving DecidableEq, Repr

/-- Google color id of a mapping color (EntityToCalMapping.COLOR_ID_MAP). -/
def COLOR_ID_MAP : ColorName → String
  | .Lavender => "1"
  | .Sage => "2"
  | .Grape => "3"
  | .Flamingo => "4"
  | .Banana => "5"
  | .Tangerine => "6"
  | .Peacock => "7"
  | .Graphite => "8"
  | .Blueberry => "9"
  | .Basil => "10"
  | .Tomato => "11"

/-- Calendar mapping row (sync.models.EntityToCalMapping). -/
structure EntityToCalMapping where
  entity_type : EntityType
  entity_id : Int
  gcal : GoogleCal
  color_name : ColorName
  process_order : Int
deriving DecidableEq, Repr

/-- EntityToCalMapping.get_color_id: the Google color id of the mapping color. -/
def EntityToCalMapping.get_color_id (m : EntityToCalMapping) : String :=
  COLOR_ID_MAP m.color_name

/-- Per-user database view read by CalendarResolver: the user scoped mapping,
tag, workspace and calendar tables. -/
structure ResolverDB where
  mappings : List EntityToCalMapping
  tags : List TogglTag
  workspaces : List TogglWorkspace
  calendars : List GoogleCal
deriving DecidableEq, Repr

/-- GoogleCal.get_default_for_user: the first calendar with is_default set. -/
def get_default_for_user (db : ResolverDB) : Option GoogleCal :=
  db.calendars.find? (fun c => c.is_default)

/-- A member of the tag list of a duck-typed time entry dict: either a
provider id or a provider name, as tolerated by the resolver. -/
inductive TagRef
  | byId (i : Int)
  | byName (s : String)
deriving DecidableEq, Repr

/-- Duck-typed time entry dict as passed to CalendarResolver.resolve; a none
field models an absent key.  The dict also carries description, start and stop
entries, which the resolver never reads and which are therefore omitted. -/
structure TimeEntryDict where
  id : Int
  tag_ids : Option (List TagRef)
  tags : Option (List TagRef)
  project_id : Option Int
  pid : Option Int
  workspace_id : Option Int
  wid : Option Int
deriving DecidableEq, Repr

/-- Models the Python expression tag_ids or tags with default empty list:
None and the empty list are falsy, so a missing or empty tag_ids key falls
back to the tags key. -/
def TimeEntryDict.tagList (e : TimeEntryDict) : List TagRef :=
  match e.tag_ids with
  | some l => if l.isEmpty then e.tags.getD [] else l
  | none => e.tags.getD []

/-- Models the Python expression a or b on two optional integers followed by a
truthiness test: 0 and None are falsy. -/
def orKey (a b : Option Int) : Option Int :=
  match truthyInt a with
  | some x => some x
  | none => truthyInt b

/-- Name to id resolution inside resolve: the name__in query over TogglTag
followed by reading toggl_id.  A byId element never equals any tag name, so it
matches no row, exactly as an integer matches no name column. -/
def resolveTagNames (db : ResolverDB) (refs : List TagRef) : List Int :=
  (db.tags.filter (fun t => refs.any (fun r => decide (r = TagRef.byName t.name)))).map
    (fun t => t.toggl_id)

/-- The effective tag id list inside resolve: when the first element is a
string the whole list is resolved through the tag name table, mirroring the
isinstance check on the head of the list in the source; otherwise the ids are
used directly. -/
def effectiveTagIds (db : ResolverDB) (l : List TagRef) : List Int :=
  match l.head? with
  | some (TagRef.byName _) => resolveTagNames db l
  | _ => l.filterMap (fun r =>
      match r with
      | TagRef.byId i => some i
      | TagRef.byName _ => none)

/-- A Django filter on entity type and id followed by first, as used for the
project, workspace and organization lookups; the pair is unique per user, so
head of the filtered list is the unique row when one exists. -/
def findMapping (db : ResolverDB) (t : EntityType) (eid : Int) :
    Option EntityToCalMapping :=
  db.mappings.find? (fun m =>
    decide (m.entity_type = t) && decide (m.entity_id = eid))

/-- The element of minimal process_order, models order_by process_order
followed by first; on a tie the earlier row wins, as in a stable sort. -/
def minByOrder : List EntityToCalMapping → Option EntityToCalMapping
  | [] => none
  | m :: ms =>
    match minByOrder ms with
    | none => some m
    | some m2 => if m2.process_order < m.process_order then some m2 else some m

/-- Result of calendar resolution (resolver.ResolvedCalendar dataclass). -/
structure ResolvedCalendar where
  calendar : GoogleCal
  color_id : Option String
deriving DecidableEq, Repr

/-- Step 1 of CalendarResolver.resolve: the tag lookup, highest priority.
Names are resolved to ids first; among the matching tag mappings the one with
the lowest process_order wins and supplies its color. -/
def tagStep (db : ResolverDB) (e : TimeEntryDict) : Option ResolvedCalendar :=
  let l := e.tagList
  if l.isEmpty then none
  else
    let ids := effectiveTagIds db l
    if ids.isEmpty then none
    else
      match minByOrder (db.mappings.filter (fun m =>
          decide (m.entity_type = EntityType.tag) && decide (m.entity_id ∈ ids))) with
      | some m => some { calendar := m.gcal, color_id := some m.get_color_id }
      | none => none

/-- Step 2 of CalendarResolver.resolve: the project mapping. -/
def projectStep (db : ResolverDB) (e : TimeEntryDict) : Option ResolvedCalendar :=
  match orKey e.project_id e.pid with
  | some p =>
    match findMapping db EntityType.project p with
    | some m => some { calendar := m.gcal, color_id := some m.get_color_id }
    | none => none
  | none => none

/-- Steps 3 and 4 of CalendarResolver.resolve: the workspace mapping, then, if
none, the mapping of the organization of that workspace; both are gated on a
workspace id being present in the dict. -/
def workspaceStep (db : ResolverDB) (e : TimeEntryDict) : Option ResolvedCalendar :=
  match orKey e.workspace_id e.wid with
  | none => none
  | some w =>
    match findMapping db EntityType.workspace w with
    | some m => some { calendar := m.gcal, color_id := some m.get_color_id }
    | none =>
      match db.workspaces.find? (fun ws => ws.toggl_id == w) with
      | some ws =>
        match truthyInt ws.organization_id with
        | some o =>
          match findMapping db EntityType.organization o with
          | some m => some { calendar := m.gcal, color_id := some m.get_color_id }
          | none => none
        | none => none
      | none => none

/-- Step 5 of CalendarResolver.resolve: fall back to the default calendar of
the user, with no forced color. -/
def defaultStep (db : ResolverDB) : Option ResolvedCalendar :=
  match get_default_for_user db with
  | some c => some { calendar := c, color_id := none }
  | none => none

/-- Embeds CalendarResolver.resolve (src/sync/services/resolver.py lines
45-162): try tags, then project, then workspace, then organization, then the
default calendar; return none when nothing applies. -/
def resolve (db : ResolverDB) (e : TimeEntryDict) : Option ResolvedCalendar :=
  match tagStep db e with
  | some r => some r
  | none =>
    match projectStep db e with
    | some r => some r
    | none =>
      match workspaceStep db e with
      | some r => some r
      | none => defaultStep db

/-- A remote Google Calendar event, the fields the core reads and writes. -/
structure RemoteEvent where
  gid : String
  icaluid : String
  summary : String
  start : Rat
  end_ : Rat
  description : String
  colorId : Option String
deriving DecidableEq, Repr

/-- The remote calendar store: events tagged with their calendar id, plus a
counter from which fresh Google event ids are drawn. -/
structure Remote where
  events : List (String × RemoteEvent)
  counter : Nat
deriving DecidableEq, Repr

/-- GoogleCalendarService.find_event_by_ical_uid: the first event of the
calendar with the given iCalUID, none when there is none. -/
def findByUid (r : Remote) (cal uid : String) : Option RemoteEvent :=
  (r.events.find? (fun p => p.1 == cal && p.2.icaluid == uid)).map
    (fun p => p.2)

/-- Number of events of a calendar carrying a given iCalUID. -/
def countUid (r : Remote) (cal uid : String) : Nat :=
  (r.events.filter (fun p => p.1 == cal && p.2.icaluid == uid)).length

/-- GoogleCalendarService.create_event (src/sync/services/gcal.py lines
132-180): insert an event with the stable iCalUID; on the duplicate conflict
the service looks the existing event up by iCalUID and returns it instead of
raising.  A falsy color_id is not written to the event body. -/
def create_event (r : Remote) (cal : String) (d : GcalData) :
    Remote × RemoteEvent :=
  match findByUid r cal d.event_id with
  | some ev => (r, ev)
  | none =>
    let ev : RemoteEvent :=
      { gid := "evt" ++ toString r.counter
        icaluid := d.event_id
        summary := d.summary
        start := d.start
        end_ := d.end_
        description := d.description
        colorId := truthyStr d.color_id }
    ({ events := r.events ++ [(cal, ev)], counter := r.counter + 1 }, ev)

/-- GoogleCalendarService.delete_event: remove the event with the given Google
event id from the calendar; a missing event is tolerated (no-op). -/
def delete_event (r : Remote) (cal gid : String) : Remote :=
  { r with events := r.events.filter (fun p => !(p.1 == cal && p.2.gid == gid)) }

/-- GoogleCalendarService.update_event: patch the provided fields of the event
with the given Google event id; a color id of none leaves the color as it is. -/
def update_event (r : Remote) (cal gid : String) (summary : Option String)
    (start : Option Rat) (end_ : Option Rat) (description : Option String)
    (color_id : Option String) : Remote :=
  { r with events := r.events.map (fun p =>
      if p.1 == cal && p.2.gid == gid then
        (p.1,
          { p.2 with
            summary := summary.getD p.2.summary
            start := start.getD p.2.start
            end_ := end_.getD p.2.end_
            description := description.getD p.2.description
            colorId :=
              match color_id with
              | some c => some c
              | none => p.2.colorId })
      else p) }

/-- One row of the django_q Schedule table, the fields written by the engine. -/
structure Schedule where
  name : String
  func : String
  args : String
  schedule_type : String
  next_run : Rat
deriving DecidableEq, Repr

/-- Schedule.objects.update_or_create keyed on name: update the defaults of
every row with that name, or append a fresh row when none exists. -/
def scheduleUpsert (l : List Schedule) (nm func args sty : String)
    (next_run : Rat) : List Schedule :=
  if l.any (fun r => r.name == nm) then
    l.map (fun r =>
      if r.name == nm then
        { r with func := func, args := args, schedule_type := sty,
                 next_run := next_run }
      else r)
  else
    l ++ [{ name := nm, func := func, args := args, schedule_type := sty,
            next_run := next_run }]

/-- Row predicate of the TogglTimeEntry queries: scoped by user and keyed by
the Toggl id. -/
def rowPred (u : Nat) (t : Int) (p : Nat × TogglTimeEntry) : Bool :=
  p.1 == u && p.2.toggl_id == t

/-- TogglTimeEntry.objects.get by user and toggl_id, as the first matching row. -/
def lookupRow (u : Nat) (t : Int) (l : List (Nat × TogglTimeEntry)) :
    Option (Nat × TogglTimeEntry) :=
  l.find? (rowPred u t)

/-- A save that writes some fields of the row keyed by user and toggl_id. -/
def updRow (u : Nat) (t : Int) (f : TogglTimeEntry → TogglTimeEntry)
    (l : List (Nat × TogglTimeEntry)) : List (Nat × TogglTimeEntry) :=
  l.map (fun p => if rowPred u t p then (p.1, f p.2) else p)

/-- The mutable state the engine touches: the entry table (rows tagged with
their user id), the remote calendar store, and the schedule table. -/
structure SyncState where
  entries : List (Nat × TogglTimeEntry)
  remote : Remote
  schedules : List Schedule
deriving DecidableEq, Repr

/-- TogglTimeEntry.objects.get(user=..., toggl_id=...) on the engine state. -/
def findEntry (s : SyncState) (u : Nat) (t : Int) : Option TogglTimeEntry :=
  (lookupRow u t s.entries).map (fun p => p.2)

/-- An entry save restricted to given fields, on the engine state. -/
def saveFields (s : SyncState) (u : Nat) (t : Int)
    (f : TogglTimeEntry → TogglTimeEntry) : SyncState :=
  { s with entries := updRow u t f s.entries }

/-- The per-user read environment of one engine run: the resolver view and the
metadata used to render events. -/
structure UserEnv where
  resolver : ResolverDB
  meta : MetaDB

/-- The time_entry dict built by process_time_entry_event (src/sync/tasks.py
lines 141-148).  It carries id, description, start, stop, project_id and
tag_ids only; in particular it has no workspace_id and no wid key, and its
tag_ids are the stored integer ids. -/
def engineDict (e : TogglTimeEntry) : TimeEntryDict :=
  { id := e.toggl_id
    tag_ids := some (e.tag_ids.map TagRef.byId)
    tags := none
    project_id := e.project_id
    pid := none
    workspace_id := none
    wid := none }

/-- Embeds the private deletion handler of the engine (src/sync/tasks.py lines
330-368): when the entry has a calendar on file, look the event up by the
stable iCalUID and delete it when found; an absent event is a no-op; the row
itself is kept and not modified here. -/
def handle_deleted (user_id : Nat) (te : TimeEntryDict) (s : SyncState) :
    SyncState :=
  match truthyInt (some te.id) with
  | none => s
  | some entry_id =>
    match findEntry s user_id entry_id with
    | none => s
    | some db_entry =>
      match db_entry.calendar with
      | none => s
      | some cal =>
        match findByUid s.remote cal.calendar_id db_entry.gcal_event_id with
        | some ev => { s with remote := delete_event s.remote cal.calendar_id ev.gid }
        | none => s

/-- Embeds the private creation handler of the engine (src/sync/tasks.py lines
177-219): resolve a destination; when resolution fails, log and return without
touching the remote store; otherwise create the event and save the calendar
reference and the synced flag on the row. -/
def handle_created (env : Nat → UserEnv) (user_id : Nat) (te : TimeEntryDict)
    (s : SyncState) : SyncState :=
  match truthyInt (some te.id) with
  | none => s
  | some entry_id =>
    match findEntry s user_id entry_id with
    | none => s
    | some db_entry =>
      match resolve (env user_id).resolver te with
      | none => s
      | some resolved =>
        let gcal_data := get_gcal_data (env user_id).meta db_entry resolved.color_id
        let remote2 := (create_event s.remote resolved.calendar.calendar_id gcal_data).1
        saveFields { s with remote := remote2 } user_id entry_id
          (fun r => { r with calendar := some resolved.calendar, synced := true })

/-- Embeds the private update handler of the engine (src/sync/tasks.py lines
222-327): no calendar on file falls back to creation; a running entry (stop
removed) falls back to deletion; a failed resolution falls back to deletion;
otherwise the current event is looked up by its stable iCalUID and, when the
destination calendar changed, deleted from the old calendar and recreated in
the new one, else updated in place (or created when it vanished); finally the
synced flag is saved on the row. -/
def handle_updated (env : Nat → UserEnv) (user_id : Nat) (te : TimeEntryDict)
    (s : SyncState) : SyncState :=
  match truthyInt (some te.id) with
  | none => s
  | some entry_id =>
    match findEntry s user_id entry_id with
    | none => s
    | some db_entry =>
      match db_entry.calendar with
      | none => handle_created env user_id te s
      | some cal =>
        match db_entry.end_time with
        | none => handle_deleted user_id te s
        | some _ =>
          match resolve (env user_id).resolver te with
          | none => handle_deleted user_id te s
          | some resolved =>
            let new_calendar := resolved.calendar
            let gcal_data := get_gcal_data (env user_id).meta db_entry resolved.color_id
            let current_event := findByUid s.remote cal.calendar_id db_entry.gcal_event_id
            if cal.dbid ≠ new_calendar.dbid then
              let r1 :=
                match current_event with
                | some ev => delete_event s.remote cal.calendar_id ev.gid
                | none => s.remote
              let r2 := (create_event r1 new_calendar.calendar_id gcal_data).1
              let s2 := saveFields { s with remote := r2 } user_id entry_id
                (fun r => { r with calendar := some new_calendar })
              saveFields s2 user_id entry_id (fun r => { r with synced := true })
            else
              let r2 :=
                match current_event with
                | some ev => update_event s.remote cal.calendar_id ev.gid
                    (some gcal_data.summary) (some gcal_data.start)
                    (some gcal_data.end_) (some gcal_data.description)
                    gcal_data.color_id
                | none => (create_event s.remote cal.calendar_id gcal_data).1
              saveFields { s with remote := r2 } user_id entry_id
                (fun r => { r with synced := true })

/-- Embeds process_time_entry_event (src/sync/tasks.py lines 89-174).  When
less than the quiet window has passed since the last update of the row, the
run defers itself: it upserts a ONCE schedule keyed on the string
process_entry_ followed by the entry id alone, to run after the remaining
whole seconds plus one.  Otherwise it branches on pending_deletion and on
whether a calendar is on file, and afterwards saves synced true on the row
with no further check.  The unknown-entity metadata refresh of the source is a
no-op on this path because the dict built here carries no workspace_id and no
wid key, so the workspace id it would refresh is always missing.  The
interfere argument models a concurrent database transaction committed between
the remote branch and the final mark-synced save; a race-free run passes the
identity. -/
def process_time_entry_event (env : Nat → UserEnv)
    (interfere : SyncState → SyncState) (now wait : Rat) (user_id : Nat)
    (entry_id : Int) (s : SyncState) : SyncState :=
  match findEntry s user_id entry_id with
  | none => s
  | some entry =>
    if now - entry.updated_at < wait then
      let remaining : Int := (wait - (now - entry.updated_at)).floor + 1
      let sched := scheduleUpsert s.schedules
        ("process_entry_" ++ toString entry_id)
        "sync.tasks.process_time_entry_event"
        ("(" ++ toString user_id ++ ", " ++ toString entry_id ++ ")")
        "ONCE"
        (now + (remaining : Rat))
      { s with schedules := sched }
    else
      let te := engineDict entry
      let s1 :=
        if entry.pending_deletion then handle_deleted user_id te s
        else if entry.calendar.isSome then handle_updated env user_id te s
        else handle_created env user_id te s
      let s2 := interfere s1
      saveFields s2 user_id entry_id (fun r => { r with synced := true })

/-- Minimal JSON values as far as the webhook view inspects them. -/
inductive JVal
  | jstr (s : String)
  | jnum (n : Int)
  | jbool (b : Bool)
  | jnull
  | jarr (xs : List JVal)
  | jobj (fields : List (String × JVal))
deriving Repr

/-- Dictionary get on a JSON object; none on a missing key or a non-object. -/
def JVal.getField : JVal → String → Option JVal
  | .jobj fs, k => (fs.find? (fun p => p.1 == k)).map (fun p => p.2)
  | _, _ => none

/-- Workspace row as read by the webhook view: routing token and secret. -/
structure WebhookWorkspace where
  user_id : Nat
  toggl_id : Int
  webhook_token : String
  webhook_secret : Option String
deriving Repr

/-- An inbound webhook request: the raw body, the outcome of parsing it as
JSON (none models a JSONDecodeError), and the signature header when present. -/
structure WebhookRequest where
  body_raw : String
  body_json : Option JVal
  sig_header : Option String
deriving Repr

/-- The HTTP outcome of the webhook view: a bare status response, the ok JSON
body, the ping validation body, or an unhandled exception (which Django turns
into a 500 server error). -/
inductive WebhookOutcome
  | http (status : Nat)
  | okJson
  | validation (code : String)
  | error (msg : String)
deriving DecidableEq, Repr

/-- Store mutation requested by the webhook view before it queues the task. -/
inductive StoreAction
  | markDeleted (user_id : Nat) (entry_id : Int)
  | upsert (user_id : Nat) (entry_id : Int) (description : String)
      (start stop : Option String) (project_id : Option Int)
      (tag_ids : List Int)
deriving DecidableEq, Repr

/-- A task handed to the queue via async_task. -/
structure QueuedTask where
  func : String
  user_id : Nat
  entry_id : Int
  group : String
deriving DecidableEq, Repr

/-- Return value of the webhook embedding: response, store mutations, queued
tasks. -/
structure WebhookResult where
  outcome : WebhookOutcome
  actions : List StoreAction
  queued : List QueuedTask
deriving Repr

/-- Embeds verify_signature (src/sync/utils.py lines 45-65).  The HMAC-SHA256
hex digest itself is abstracted as the function argument hmacHex taking the
secret and the payload; the view logic only compares its output.  The sha256=
prefix is stripped when present and the rest is compared with the digest. -/
def verify_signature (hmacHex : String → String → String) (payload : String)
    (signature : String) (secret : String) : Bool :=
  let sig := if signature.startsWith "sha256=" then signature.drop 7 else signature
  sig == hmacHex secret payload

/-- Integer truthiness of the id field of the payload: a missing key, null, 0
or a non-numeric value make the Python truth test fail or the id unusable. -/
def JVal.truthyId : Option JVal → Option Int
  | some (.jnum n) => if n = 0 then none else some n
  | _ => none

/-- String read with default empty, as dict get with default. -/
def JVal.strOr (v : Option JVal) (d : String) : String :=
  match v with
  | some (.jstr s) => s
  | _ => d

/-- Optional string read, as dict get of a string-or-absent field. -/
def JVal.strOpt : Option JVal → Option String
  | some (.jstr s) => some s
  | _ => none

/-- Optional integer read, as dict get of a numeric-or-absent field. -/
def JVal.intOpt : Option JVal → Option Int
  | some (.jnum n) => some n
  | _ => none

/-- Integer list read with default empty, for the tag_ids field. -/
def JVal.intListOr : Option JVal → List Int
  | some (.jarr xs) => xs.filterMap (fun v =>
      match v with
      | .jnum n => some n
      | _ => none)
  | _ => []

/-- Embeds toggl_webhook (src/sync/views.py lines 73-223).  The route token is
looked up over all workspaces; an unknown token is 404.  The body is parsed;
a parse failure is 400.  When the workspace has a truthy secret the signature
header is verified; a failing verification is 401, and a missing header makes
verify_signature receive None and crash on startswith, an unhandled
AttributeError.  A ping payload echoes the validation code.  A non-dict
payload, a missing or zero id and an unknown action are all accepted and
ignored with the ok body.  A deleted action marks the row for deletion and
clears synced; created and updated upsert the row with synced false; in both
cases the processing task is queued. -/
def toggl_webhook (hmacHex : String → String → String)
    (workspaces : List WebhookWorkspace) (token : String)
    (req : WebhookRequest) : WebhookResult :=
  match workspaces.find? (fun w => w.webhook_token == token) with
  | none => ⟨.http 404, [], []⟩
  | some ws =>
    match req.body_json with
    | none => ⟨.http 400, [], []⟩
    | some payload =>
      let sigFail : Option WebhookResult :=
        match truthyStr ws.webhook_secret with
        | some secret =>
          match req.sig_header with
          | none => some ⟨.error "AttributeError", [], []⟩
          | some sig =>
            if verify_signature hmacHex req.body_raw sig secret then none
            else some ⟨.http 401, [], []⟩
        | none => none
      match sigFail with
      | some r => r
      | none =>
        let inner := payload.getField "payload"
        let metadata := (payload.getField "metadata").getD (JVal.jobj [])
        match inner with
        | some (JVal.jstr s) =>
          if s = "ping" then
            match truthyStr (JVal.strOpt (payload.getField "validation_code")) with
            | some code => ⟨.validation code, [], []⟩
            | none => ⟨.okJson, [], []⟩
          else ⟨.okJson, [], []⟩
        | some (JVal.jobj entryFields) =>
          let entry := JVal.jobj entryFields
          match JVal.truthyId (entry.getField "id") with
          | none => ⟨.okJson, [], []⟩
          | some entry_id =>
            match metadata.getField "action" with
            | some (JVal.jstr a) =>
              let event_type := a.toLower
              if event_type = "created" ∨ event_type = "updated"
                  ∨ event_type = "deleted" then
                let act : StoreAction :=
                  if event_type = "deleted" then
                    .markDeleted ws.user_id entry_id
                  else
                    .upsert ws.user_id entry_id
                      (JVal.strOr (entry.getField "description") "")
                      (JVal.strOpt (entry.getField "start"))
                      (JVal.strOpt (entry.getField "stop"))
                      (JVal.intOpt (entry.getField "project_id"))
                      (JVal.intListOr (entry.getField "tag_ids"))
                let task : QueuedTask :=
                  { func := "sync.tasks.process_time_entry_event"
                    user_id := ws.user_id
                    entry_id := entry_id
                    group := "user_" ++ toString ws.user_id ++ "_entry_"
                      ++ toString entry_id }
                ⟨.okJson, [act], [task]⟩
              else ⟨.okJson, [], []⟩
            | some _ => ⟨.error "AttributeError", [], []⟩
            | none => ⟨.okJson, [], []⟩
        | _ => ⟨.okJson, [], []⟩

/-- A user row as seen by the reconciliation loop: the connected flag models
UserCredentials.is_connected. -/
structure SyncUser where
  uid : Nat
  connected : Bool
deriving DecidableEq, Repr

/-- The expected rendering of the local description as the event summary, as
in the summary field of get_gcal_data. -/
def expected_summary (e : TogglTimeEntry) : String :=
  if e.description = "" then "(No description)" else e.description

/-- Modelled from the spec: the candidate batch of one reconciliation pass.
The task validate_synced_events is scheduled by SyncConfig._setup_schedules
(src/sync/apps.py) and exercised by the test suite, but its definition is
absent from src/sync/tasks.py, so the reconciliation pass is modelled from the
spec, section 4.3: for each user with valid credentials, a bounded batch of
synced true, pending_deletion false entries of that user is examined per
cycle. -/
def validate_batch (cap : Nat) (u : SyncUser)
    (entries : List (Nat × TogglTimeEntry)) : List Int :=
  ((entries.filter (fun p =>
      p.1 == u.uid && p.2.synced && !p.2.pending_deletion)).map
      (fun p => p.2.toggl_id)).take cap

/-- Modelled from the spec: the reconciliation decision for one row.  The
remote event is looked up by the stable external key through the lookup
argument (an Except models a per-entry failure of the remote call); when the
event is absent, synced is cleared; when it is present but its summary does
not match the expected rendering of the local description, synced is cleared;
a per-entry failure is logged and skipped, leaving the row alone. -/
def validate_row (lookup : Nat → String → Except String (Option RemoteEvent))
    (u : SyncUser) (batch : List Int) (p : Nat × TogglTimeEntry) :
    Nat × TogglTimeEntry :=
  if p.1 == u.uid && p.2.synced && !p.2.pending_deletion
      && batch.contains p.2.toggl_id then
    match lookup u.uid p.2.gcal_event_id with
    | Except.error _ => p
    | Except.ok none => (p.1, { p.2 with synced := false })
    | Except.ok (some ev) =>
      if ev.summary = expected_summary p.2 then p
      else (p.1, { p.2 with synced := false })
  else p

/-- Modelled from the spec: the reconciliation pass of one user, skipped
entirely when the user has no valid credentials. -/
def validate_user_entries
    (lookup : Nat → String → Except String (Option RemoteEvent)) (cap : Nat)
    (u : SyncUser) (entries : List (Nat × TogglTimeEntry)) :
    List (Nat × TogglTimeEntry) :=
  if !u.connected then entries
  else entries.map (validate_row lookup u (validate_batch cap u entries))

/-- Modelled from the spec: the periodic reconciliation task
validate_synced_events, iterating the per-user pass over every user; a
failure inside one user never touches the entries of another user. -/
def validate_synced_events
    (lookup : Nat → String → Except String (Option RemoteEvent)) (cap : Nat)
    (users : List SyncUser) (entries : List (Nat × TogglTimeEntry)) :
    List (Nat × TogglTimeEntry) :=
  users.foldl (fun acc u => validate_user_entries lookup cap u acc) entries

/-! Concrete fixtures used by witnesses and counterexamples. -/

/-- A default calendar fixture. -/
def cal0 : GoogleCal :=
  { dbid := 1, calendar_id := "cal-primary", name := "Primary", is_default := true }

/-- A second, non-default calendar fixture. -/
def cal1 : GoogleCal :=
  { dbid := 2, calendar_id := "cal-work", name := "Work", is_default := false }

/-- A user environment with no mappings and no calendars at all. -/
def envEmpty : Nat → UserEnv :=
  fun _ => ⟨{ mappings := [], tags := [], workspaces := [], calendars := [] },
            { projects := [], tags := [] }⟩

/-- A user environment whose only destination is the default calendar. -/
def envDefault : Nat → UserEnv :=
  fun _ => ⟨{ mappings := [], tags := [], workspaces := [], calendars := [cal0] },
            { projects := [], tags := [] }⟩

/-- A finished entry fixture for user 1 with Toggl id 5 and no calendar yet. -/
def entry5 : TogglTimeEntry :=
  { toggl_id := 5, description := "Work", start_time := 0, end_time := some 3600,
    project_id := none, tag_ids := [], calendar := none, synced := false,
    pending_deletion := false, updated_at := 100 }

/-- An entry fixture flagged for deletion, with a calendar on file. -/
def entryC1 : TogglTimeEntry :=
  { entry5 with calendar := some cal0, pending_deletion := true }

/-- An entry fixture marked synced, as a reconciliation candidate. -/
def entryC8 : TogglTimeEntry :=
  { entry5 with synced := true }

/-- A connected user fixture owning entryC8. -/
def userC8 : SyncUser :=
  { uid := 1, connected := true }

/-- An HMAC stub returning a fixed digest. -/
def hmac0 : String → String → String := fun _ _ => "digest"

/-- A workspace fixture with a webhook secret on file. -/
def wsC7 : WebhookWorkspace :=
  { user_id := 1, toggl_id := 9, webhook_token := "tok", webhook_secret := some "sec" }

/-- A request fixture with a parsed body and a wrong signature header. -/
def reqC7 : WebhookRequest :=
  { body_raw := "payload-bytes", body_json := some (JVal.jobj []),
    sig_header := some "bad" }

/-- A request fixture with a parsed body and no signature header. -/
def reqC7none : WebhookRequest :=
  { body_raw := "payload-bytes", body_json := some (JVal.jobj []),
    sig_header := none }

/-- The remote event of the deletion fixture, addressed by the stable key. -/
def evC1 : RemoteEvent :=
  { gid := "evt0", icaluid := "toggl5", summary := "Work", start := 0,
    end_ := 3600, description := "Toggl Entry: 5", colorId := none }

/-- The engine state of the deletion fixture. -/
def sC1 : SyncState :=
  { entries := [(1, entryC1)], remote := ⟨[("cal-primary", evC1)], 1⟩,
    schedules := [] }

/-- The engine state of the no-destination fixture: one pending entry, no
calendars configured anywhere, an empty remote store. -/
def sC2 : SyncState :=
  { entries := [(1, entry5)], remote := ⟨[], 0⟩, schedules := [] }

/-- The concurrent transaction of the optimistic-check scenario: between the
remote call and the final save, a newer webhook rewrites the row, changing the
description, clearing synced and moving updated_at forward. -/
def interfereC3 : SyncState → SyncState :=
  fun s => saveFields s 1 5 (fun r =>
    { r with description := "Updated by webhook", synced := false,
             updated_at := 230 })

/-- First user entry of the shared-id fixture: Toggl id 7, updated at 100. -/
def e7a : TogglTimeEntry :=
  { entry5 with toggl_id := 7 }

/-- Second user entry of the shared-id fixture: same Toggl id 7, updated at
90. -/
def e7b : TogglTimeEntry :=
  { entry5 with toggl_id := 7, updated_at := 90 }

/-- State with two users each owning an entry with the same Toggl id. -/
def sC10 : SyncState :=
  { entries := [(1, e7a), (2, e7b)], remote := ⟨[], 0⟩, schedules := [] }

/-- A running entry fixture: same as entry5 but with no end time. -/
def entryC9 : TogglTimeEntry :=
  { entry5 with end_time := none }

/-- The engine state of the running-entry double-run scenario: one running
entry, an empty remote store. -/
def sC9 : SyncState :=
  { entries := [(1, entryC9)], remote := ⟨[], 0⟩, schedules := [] }

/-- Abbreviation for the row state after the creation handler saved it: the
resolved calendar assigned and synced set. -/
def withCal (e : TogglTimeEntry) (c : GoogleCal) : TogglTimeEntry :=
  { e with calendar := some c, synced := true }

/-- Spec-side predicate: the mapping row is a tag mapping of one of the
effective tag ids of the entry. -/
def matchesTagMapping (db : ResolverDB) (ids : List Int)
    (m : EntityToCalMapping) : Prop :=
  m ∈ db.mappings ∧ m.entity_type = EntityType.tag ∧ m.entity_id ∈ ids

/-- Spec-side predicate: some mapping row exists for the entity. -/
def hasMapping (db : ResolverDB) (ty : EntityType) (i : Int) : Prop :=
  ∃ m ∈ db.mappings, m.entity_type = ty ∧ m.entity_id = i

/-- Spec-side predicate: no tag of the entry has a mapping. -/
def noTagMatch (db : ResolverDB) (e : TimeEntryDict) : Prop :=
  ∀ m, ¬ matchesTagMapping db (effectiveTagIds db e.tagList) m

/-- Spec-side predicate: the project of the entry has no mapping. -/
def noProjectMatch (db : ResolverDB) (e : TimeEntryDict) : Prop :=
  ∀ p, orKey e.project_id e.pid = some p → ¬ hasMapping db EntityType.project p

/-- Spec-side predicate: neither the workspace of the entry nor the
organization of that workspace has a mapping. -/
def noWorkspaceOrOrgMatch (db : ResolverDB) (e : TimeEntryDict) : Prop :=
  ∀ w, orKey e.workspace_id e.wid = some w →
    ¬ hasMapping db EntityType.workspace w
    ∧ ∀ ws, db.workspaces.find? (fun x => x.toggl_id == w) = some ws →
        ∀ o, truthyInt ws.organization_id = some o →
          ¬ hasMapping db EntityType.organization o

/-- A tag mapping fixture for tag id 50 with the Tomato color. -/
def mapTag50 : EntityToCalMapping :=
  { entity_type := EntityType.tag, entity_id := 50, gcal := cal1,
    color_name := ColorName.Tomato, process_order := 1 }

/-- A resolver database fixture with one tag mapping and a default calendar. -/
def dbC4 : ResolverDB :=
  { mappings := [mapTag50], tags := [], workspaces := [], calendars := [cal0] }

/-- A time entry dict fixture carrying tag id 50. -/
def eC4 : TimeEntryDict :=
  { id := 5, tag_ids := some [TagRef.byId 50], tags := none, project_id := none,
    pid := none, workspace_id := none, wid := none }

/-- Spec-side description of the reconciliation outcome for one entry: remote
absent clears synced, a summary mismatch clears synced, a matching summary and
a failed lookup leave the entry alone. -/
def reconcileEntry (lookup : Nat → String → Except String (Option RemoteEvent))
    (u : SyncUser) (e : TogglTimeEntry) : TogglTimeEntry :=
  match lookup u.uid e.gcal_event_id with
  | Except.error _ => e
  | Except.ok none => { e with synced := false }
  | Except.ok (some ev) =>
    if ev.summary = expected_summary e then e else { e with synced := false }

/-! Helper lemmas about the embedded operations. -/

/-- The library floor on rationals agrees with the floor ring floor. -/
theorem rat_floor_eq_int_floor (q : Rat) : q.floor = ⌊q⌋ :=
  (Rat.floor_def' q).trans Rat.floor_def.symm

/-- A row returned by lookupRow carries the looked-up key. -/
theorem lookupRow_key {u : Nat} {t : Int} {l : List (Nat × TogglTimeEntry)}
    {p : Nat × TogglTimeEntry} (h : lookupRow u t l = some p) :
    p.1 = u ∧ p.2.toggl_id = t := by
  have hp := List.find?_some h
  simpa [rowPred] using hp

/-- A row returned by lookupRow is a member of the table. -/
theorem lookupRow_mem {u : Nat} {t : Int} {l : List (Nat × TogglTimeEntry)}
    {p : Nat × TogglTimeEntry} (h : lookupRow u t l = some p) : p ∈ l :=
  List.mem_of_find?_eq_some h

/-- A keyed save commutes with looking the same key up, provided the saved
fields do not include the key itself. -/
theorem lookupRow_updRow_same {u : Nat} {t : Int}
    {f : TogglTimeEntry → TogglTimeEntry} {l : List (Nat × TogglTimeEntry)}
    (hf : ∀ r, (f r).toggl_id = r.toggl_id) :
    lookupRow u t (updRow u t f l)
      = (lookupRow u t l).map (fun p => (p.1, f p.2)) := by
  unfold lookupRow updRow
  rw [List.find?_map]
  have hpred : (rowPred u t ∘ fun p => if rowPred u t p then (p.1, f p.2) else p)
      = rowPred u t := by
    funext p
    by_cases hp : rowPred u t p
    · simp only [Function.comp, hp, if_pos]
      simp only [rowPred, Bool.and_eq_true, beq_iff_eq] at hp ⊢
      exact ⟨hp.1, by rw [hf]; exact hp.2⟩
    · simp only [Function.comp, hp, if_neg, not_false_iff]
      simp [hp]
  rw [hpred]
  cases hfind : l.find? (rowPred u t) with
  | none => rfl
  | some a =>
    have ha := List.find?_some hfind
    simp [ha]

/-- A keyed save leaves rows with a different key untouched. -/
theorem lookupRow_updRow_ne {u u2 : Nat} {t t2 : Int}
    {f : TogglTimeEntry → TogglTimeEntry} {l : List (Nat × TogglTimeEntry)}
    (hk : u ≠ u2 ∨ t ≠ t2) (hf : ∀ r, (f r).toggl_id = r.toggl_id) :
    lookupRow u2 t2 (updRow u t f l) = lookupRow u2 t2 l := by
  unfold lookupRow updRow
  rw [List.find?_map]
  have hpred : (rowPred u2 t2 ∘ fun p => if rowPred u t p then (p.1, f p.2) else p)
      = rowPred u2 t2 := by
    funext p
    by_cases hp : rowPred u t p
    · simp only [Function.comp, hp, if_pos]
      simp only [rowPred]
      rw [hf]
    · simp [Function.comp, hp]
  rw [hpred]
  cases hfind : l.find? (rowPred u2 t2) with
  | none => rfl
  | some a =>
    have ha := List.find?_some hfind
    have hnot : rowPred u t a = false := by
      simp only [rowPred, Bool.and_eq_true, beq_iff_eq] at ha
      simp only [rowPred, Bool.and_eq_false_iff, beq_eq_false_iff_ne, ne_eq]
      rcases hk with hk | hk
      · exact Or.inl (by rw [ha.1]; exact fun hx => hk hx.symm)
      · exact Or.inr (by rw [ha.2]; exact fun hx => hk hx.symm)
    simp [hnot]

/-- After an upsert keyed on a schedule name, the rows with that name are
exactly the single upserted row, provided the table held at most one before. -/
theorem scheduleUpsert_filter_key {l : List Schedule} {nm f a sty : String}
    {nt : Rat} (h : (l.filter (fun r => r.name == nm)).length ≤ 1) :
    (scheduleUpsert l nm f a sty nt).filter (fun r => r.name == nm)
      = [{ name := nm, func := f, args := a, schedule_type := sty,
           next_run := nt }] := by
  unfold scheduleUpsert
  by_cases hany : l.any (fun r => r.name == nm)
  · rw [if_pos hany]
    have hex : ∃ x ∈ l, x.name == nm := List.any_eq_true.mp hany
    have hlen : (l.filter (fun r => r.name == nm)).length = 1 := by
      rcases hex with ⟨x, hx, hpx⟩
      have : x ∈ l.filter (fun r => r.name == nm) := List.mem_filter.mpr ⟨hx, hpx⟩
      have hpos : 0 < (l.filter (fun r => r.name == nm)).length :=
        List.length_pos.mpr (List.ne_nil_of_mem this)
      omega
    rcases List.length_eq_one.mp hlen with ⟨r0, hr0⟩
    have hr0mem : r0 ∈ l.filter (fun r => r.name == nm) := by
      rw [hr0]; exact List.mem_singleton.mpr rfl
    have hr0name : r0.name = nm := by
      have := (List.mem_filter.mp hr0mem).2
      simpa using this
    have hpresv : ((fun r : Schedule => r.name == nm) ∘ fun r =>
        if r.name == nm then
          { r with func := f, args := a, schedule_type := sty, next_run := nt }
        else r) = fun r => r.name == nm := by
      funext r
      by_cases hr : r.name = nm
      · simp [Function.comp, hr]
      · simp [Function.comp, hr]
    rw [List.filter_map, hpresv, hr0]
    simp [hr0name]
  · rw [if_neg hany]
    have hnil : l.filter (fun r => r.name == nm) = [] := by
      rw [List.filter_eq_nil_iff]
      intro x hx
      intro hpx
      exact hany (List.any_eq_true.mpr ⟨x, hx, hpx⟩)
    rw [List.filter_append, hnil]
    simp

/-- An upsert keyed on a schedule name leaves rows with other names as they
were. -/
theorem scheduleUpsert_filter_other {l : List Schedule} {nm f a sty : String}
    {nt : Rat} :
    (scheduleUpsert l nm f a sty nt).filter (fun r => !(r.name == nm))
      = l.filter (fun r => !(r.name == nm)) := by
  unfold scheduleUpsert
  by_cases hany : l.any (fun r => r.name == nm)
  · rw [if_pos hany]
    have hpresv : ((fun r : Schedule => !(r.name == nm)) ∘ fun r =>
        if r.name == nm then
          { r with func := f, args := a, schedule_type := sty, next_run := nt }
        else r) = fun r => !(r.name == nm) := by
      funext r
      by_cases hr : r.name = nm
      · simp [Function.comp, hr]
      · simp [Function.comp, hr]
    rw [List.filter_map, hpresv]
    have hid : ∀ r ∈ l.filter (fun r => !(r.name == nm)),
        (if (r.name == nm) = true then
          { r with func := f, args := a, schedule_type := sty, next_run := nt }
        else r) = id r := by
      intro r hr
      have := (List.mem_filter.mp hr).2
      have hne : ¬ (r.name == nm) = true := by simpa using this
      simp [hne]
    rw [List.map_congr_left hid, List.map_id]
  · rw [if_neg hany]
    rw [List.filter_append]
    simp

/-- The stable key is absent exactly when no event of the calendar carries it. -/
theorem findByUid_eq_none_iff (r : Remote) (cal uid : String) :
    findByUid r cal uid = none ↔ countUid r cal uid = 0 := by
  unfold findByUid countUid
  constructor
  · intro h
    have hf : r.events.find? (fun p => p.1 == cal && p.2.icaluid == uid) = none := by
      cases hf : r.events.find? (fun p => p.1 == cal && p.2.icaluid == uid) with
      | none => rfl
      | some p => rw [hf] at h; simp at h
    rw [List.find?_eq_none] at hf
    have hnil : r.events.filter (fun p => p.1 == cal && p.2.icaluid == uid) = [] :=
      List.filter_eq_nil_iff.mpr hf
    rw [hnil]
    rfl
  · intro h
    have hnil : r.events.filter (fun p => p.1 == cal && p.2.icaluid == uid) = [] :=
      List.length_eq_zero.mp h
    have hall := List.filter_eq_nil_iff.mp hnil
    rw [List.find?_eq_none.mpr hall]
    rfl

/-- A positive count of the stable key means the lookup finds an event. -/
theorem findByUid_isSome_of_countUid_pos {r : Remote} {cal uid : String}
    (h : 0 < countUid r cal uid) : ∃ ev, findByUid r cal uid = some ev := by
  unfold countUid at h
  unfold findByUid
  cases hf : r.events.find? (fun p => p.1 == cal && p.2.icaluid == uid) with
  | some p => exact ⟨p.2, rfl⟩
  | none =>
    rw [List.find?_eq_none] at hf
    have hnil : r.events.filter (fun p => p.1 == cal && p.2.icaluid == uid) = [] :=
      List.filter_eq_nil_iff.mpr hf
    rw [hnil] at h
    simp at h

/-- The create-conflict contract of the adapter: when an event with the given
stable key already exists in the calendar, create_event adopts it and leaves
the remote store unchanged. -/
theorem create_event_conflict (r : Remote) (cal : String) (d : GcalData)
    (ev : RemoteEvent) (h : findByUid r cal d.event_id = some ev) :
    create_event r cal d = (r, ev) := by
  unfold create_event
  rw [h]

/-- Creating an event with an absent stable key adds exactly one event with
that key to the calendar. -/
theorem countUid_create_miss (r : Remote) (cal : String) (d : GcalData)
    (h : findByUid r cal d.event_id = none) :
    countUid (create_event r cal d).1 cal d.event_id
      = countUid r cal d.event_id + 1 := by
  unfold create_event
  rw [h]
  unfold countUid
  simp only
  rw [List.filter_append]
  simp

/-- Creating an event with an absent stable key allocates one fresh event id. -/
theorem counter_create_miss (r : Remote) (cal : String) (d : GcalData)
    (h : findByUid r cal d.event_id = none) :
    (create_event r cal d).1.counter = r.counter + 1 := by
  unfold create_event
  rw [h]

/-- Updating an event in place never changes how many events carry a key. -/
theorem countUid_update_event (r : Remote) (cal gid : String)
    (a : Option String) (b c : Option Rat) (dd e : Option String)
    (cal2 uid : String) :
    countUid (update_event r cal gid a b c dd e) cal2 uid
      = countUid r cal2 uid := by
  unfold update_event countUid
  simp only
  rw [List.filter_map]
  have hpred : ((fun p : String × RemoteEvent => p.1 == cal2 && p.2.icaluid == uid)
      ∘ fun p => if p.1 == cal && p.2.gid == gid then
          (p.1,
            { p.2 with
              summary := a.getD p.2.summary
              start := b.getD p.2.start
              end_ := c.getD p.2.end_
              description := dd.getD p.2.description
              colorId :=
                match e with
                | some cc => some cc
                | none => p.2.colorId })
        else p)
      = fun p : String × RemoteEvent => p.1 == cal2 && p.2.icaluid == uid := by
    funext p
    by_cases hp : (p.1 == cal && p.2.gid == gid) = true
    · simp [Function.comp, hp]
    · simp [Function.comp, hp]
  rw [hpred, List.length_map]

/-- Updating an event in place never allocates a fresh event id. -/
theorem counter_update_event (r : Remote) (cal gid : String)
    (a : Option String) (b c : Option Rat) (dd e : Option String) :
    (update_event r cal gid a b c dd e).counter = r.counter := rfl

/-- The rendered event carries the stable key of its entry. -/
theorem gcal_data_event_id (db : MetaDB) (e : TogglTimeEntry)
    (c : Option String) : (get_gcal_data db e c).event_id = e.gcal_event_id := rfl

/-- Projection facts about the saved row state. -/
theorem withCal_calendar (e : TogglTimeEntry) (c : GoogleCal) :
    (withCal e c).calendar = some c := rfl

/-- The saved row state keeps the end time of the entry. -/
theorem withCal_end_time (e : TogglTimeEntry) (c : GoogleCal) :
    (withCal e c).end_time = e.end_time := rfl

/-- Claim C6: for every time entry, the rendered calendar-event data has end
time equal to end_time when present and to start_time plus one minute when it
is null, and whenever end_time is null the rendered color is the fixed running
color "8", overriding any color passed in from a resolved mapping. -/
theorem C6_end_time_and_running_color (db : MetaDB) (e : TogglTimeEntry)
    (c : Option String) :
    (get_gcal_data db e c).end_
        = (match e.end_time with
           | some t => t
           | none => e.start_time + 60)
      ∧ (get_gcal_data db e c).color_id
        = (match e.end_time with
           | none => some "8"
           | some _ => c) := by
  cases he : e.end_time <;> simp [get_gcal_data, he]

/-- A run inside the quiet window only upserts the deferred schedule row. -/
theorem defer_step (env : Nat → UserEnv) (interfere : SyncState → SyncState)
    (now wait : Rat) (u : Nat) (t : Int) (s : SyncState)
    (entry : TogglTimeEntry) (hfind : findEntry s u t = some entry)
    (hlt : now - entry.updated_at < wait) :
    process_time_entry_event env interfere now wait u t s
      = { s with schedules := (scheduleUpsert s.schedules
            ("process_entry_" ++ toString t)
            "sync.tasks.process_time_entry_event"
            ("(" ++ toString u ++ ", " ++ toString t ++ ")")
            "ONCE"
            (now + (((wait - (now - entry.updated_at)).floor + 1 : Int) : Rat))) } := by
  rw [process_time_entry_event, hfind]
  simp only [if_pos hlt]

/-- A run past the quiet window branches on the disposition and then saves
synced true on the row, after the interference point. -/
theorem process_step (env : Nat → UserEnv) (interfere : SyncState → SyncState)
    (now wait : Rat) (u : Nat) (t : Int) (s : SyncState)
    (entry : TogglTimeEntry) (hfind : findEntry s u t = some entry)
    (hge : ¬ now - entry.updated_at < wait) :
    process_time_entry_event env interfere now wait u t s
      = saveFields (interfere
          (if entry.pending_deletion then handle_deleted u (engineDict entry) s
           else if entry.calendar.isSome then handle_updated env u (engineDict entry) s
           else handle_created env u (engineDict entry) s)) u t
          (fun r => { r with synced := true }) := by
  rw [process_time_entry_event, hfind]
  simp only [if_neg hge]

/-- A run past the quiet window on an entry flagged pending_deletion takes the
deletion branch. -/
theorem process_step_deleted (env : Nat → UserEnv)
    (interfere : SyncState → SyncState) (now wait : Rat) (u : Nat) (t : Int)
    (s : SyncState) (entry : TogglTimeEntry)
    (hfind : findEntry s u t = some entry)
    (hge : ¬ now - entry.updated_at < wait)
    (hpd : entry.pending_deletion = true) :
    process_time_entry_event env interfere now wait u t s
      = saveFields (interfere (handle_deleted u (engineDict entry) s)) u t
          (fun r => { r with synced := true }) := by
  rw [process_step env interfere now wait u t s entry hfind hge]
  simp [hpd]

/-- A run past the quiet window on an unflagged entry with no calendar on file
takes the creation branch. -/
theorem process_step_created (env : Nat → UserEnv)
    (interfere : SyncState → SyncState) (now wait : Rat) (u : Nat) (t : Int)
    (s : SyncState) (entry : TogglTimeEntry)
    (hfind : findEntry s u t = some entry)
    (hge : ¬ now - entry.updated_at < wait)
    (hpd : entry.pending_deletion = false)
    (hcal : entry.calendar = none) :
    process_time_entry_event env interfere now wait u t s
      = saveFields (interfere (handle_created env u (engineDict entry) s)) u t
          (fun r => { r with synced := true }) := by
  rw [process_step env interfere now wait u t s entry hfind hge]
  simp [hpd, hcal]

/-- A run past the quiet window on an unflagged entry with a calendar on file
takes the update branch. -/
theorem process_step_updated (env : Nat → UserEnv)
    (interfere : SyncState → SyncState) (now wait : Rat) (u : Nat) (t : Int)
    (s : SyncState) (entry : TogglTimeEntry) (cal : GoogleCal)
    (hfind : findEntry s u t = some entry)
    (hge : ¬ now - entry.updated_at < wait)
    (hpd : entry.pending_deletion = false)
    (hcal : entry.calendar = some cal) :
    process_time_entry_event env interfere now wait u t s
      = saveFields (interfere (handle_updated env u (engineDict entry) s)) u t
          (fun r => { r with synced := true }) := by
  rw [process_step env interfere now wait u t s entry hfind hge]
  simp [hpd, hcal]

/-- The key of the row returned by findEntry is the looked-up Toggl id. -/
theorem findEntry_key {s : SyncState} {u : Nat} {t : Int}
    {entry : TogglTimeEntry} (h : findEntry s u t = some entry) :
    entry.toggl_id = t := by
  unfold findEntry at h
  cases hp : lookupRow u t s.entries with
  | none => rw [hp] at h; simp at h
  | some p =>
    rw [hp] at h
    simp at h
    have := (lookupRow_key hp).2
    rw [← h]
    exact this

/-- The deletion handler never touches the entry table. -/
theorem handle_deleted_entries (u : Nat) (te : TimeEntryDict) (s : SyncState) :
    (handle_deleted u te s).entries = s.entries := by
  unfold handle_deleted
  repeat' split
  all_goals rfl

/-- The deletion handler never touches the schedule table. -/
theorem handle_deleted_schedules (u : Nat) (te : TimeEntryDict) (s : SyncState) :
    (handle_deleted u te s).schedules = s.schedules := by
  unfold handle_deleted
  repeat' split
  all_goals rfl

/-- A save on a key commutes with finding that key. -/
theorem findEntry_saveFields_same {s : SyncState} {u : Nat} {t : Int}
    {f : TogglTimeEntry → TogglTimeEntry}
    (hf : ∀ r, (f r).toggl_id = r.toggl_id) :
    findEntry (saveFields s u t f) u t = (findEntry s u t).map f := by
  unfold findEntry saveFields
  simp only
  rw [lookupRow_updRow_same hf]
  cases lookupRow u t s.entries <;> rfl

/-- A save never touches the remote store. -/
theorem saveFields_remote (s : SyncState) (u : Nat) (t : Int)
    (f : TogglTimeEntry → TogglTimeEntry) :
    (saveFields s u t f).remote = s.remote := rfl

/-- A save never touches the schedule table. -/
theorem saveFields_schedules (s : SyncState) (u : Nat) (t : Int)
    (f : TogglTimeEntry → TogglTimeEntry) :
    (saveFields s u t f).schedules = s.schedules := rfl

/-- Reading an entry ignores the remote store component. -/
theorem findEntry_set_remote (s : SyncState) (x : Remote) (u : Nat) (t : Int) :
    findEntry { s with remote := x } u t = findEntry s u t := rfl

/-- A deleted event is gone from the remote store. -/
theorem delete_event_not_mem (r : Remote) (cal : String) (ev : RemoteEvent) :
    (cal, ev) ∉ (delete_event r cal ev.gid).events := by
  unfold delete_event
  intro hmem
  have := (List.mem_filter.mp hmem).2
  simp at this

/-- Reading an entry only depends on the entry table. -/
theorem findEntry_congr_entries {a b : SyncState} {u : Nat} {t : Int}
    (h : a.entries = b.entries) : findEntry a u t = findEntry b u t := by
  unfold findEntry lookupRow
  rw [h]

/-- Saving the synced flag preserves the row key. -/
theorem mark_synced_keeps_key :
    ∀ r : TogglTimeEntry,
      (({ r with synced := true } : TogglTimeEntry)).toggl_id = r.toggl_id :=
  fun _ => rfl

/-- Claim C1 (amended): a successful run of the engine on an entry flagged
pending_deletion deletes the remote event when it is found by the stable
external key and is a no-op on the remote store when it is absent (or when no
calendar is on file); the row is kept with pending_deletion true; but the
engine then sets synced to true, it does not leave synced false. -/
theorem C1_deletion_branch (env : Nat → UserEnv) (now wait : Rat) (u : Nat)
    (t : Int) (s : SyncState) (entry : TogglTimeEntry)
    (hfind : findEntry s u t = some entry)
    (hpd : entry.pending_deletion = true)
    (hge : ¬ now - entry.updated_at < wait)
    (ht : t ≠ 0) :
    findEntry (process_time_entry_event env id now wait u t s) u t
        = some { entry with synced := true }
      ∧ ({ entry with synced := true }).pending_deletion = true
      ∧ (process_time_entry_event env id now wait u t s).schedules = s.schedules
      ∧ (∀ cal, entry.calendar = some cal →
          (∀ ev, findByUid s.remote cal.calendar_id entry.gcal_event_id = some ev →
            (process_time_entry_event env id now wait u t s).remote
                = delete_event s.remote cal.calendar_id ev.gid
              ∧ (cal.calendar_id, ev)
                  ∉ (process_time_entry_event env id now wait u t s).remote.events)
          ∧ (findByUid s.remote cal.calendar_id entry.gcal_event_id = none →
              (process_time_entry_event env id now wait u t s).remote = s.remote))
      ∧ (entry.calendar = none →
          (process_time_entry_event env id now wait u t s).remote = s.remote) := by
  have htid : entry.toggl_id = t := findEntry_key hfind
  have h1 : truthyInt (some (engineDict entry).id) = some t := by
    simp [engineDict, truthyInt, htid, ht]
  have hstep : process_time_entry_event env id now wait u t s
      = saveFields (handle_deleted u (engineDict entry) s) u t
          (fun r => { r with synced := true }) := by
    rw [process_step_deleted env id now wait u t s entry hfind hge hpd]
    rfl
  have hdel_none : entry.calendar = none →
      handle_deleted u (engineDict entry) s = s := by
    intro hc
    simp only [handle_deleted, h1, hfind, hc]
  have hdel_found : ∀ cal ev, entry.calendar = some cal →
      findByUid s.remote cal.calendar_id entry.gcal_event_id = some ev →
      handle_deleted u (engineDict entry) s
        = { s with remote := delete_event s.remote cal.calendar_id ev.gid } := by
    intro cal ev hc hev
    simp only [handle_deleted, h1, hfind, hc, hev]
  have hdel_absent : ∀ cal, entry.calendar = some cal →
      findByUid s.remote cal.calendar_id entry.gcal_event_id = none →
      handle_deleted u (engineDict entry) s = s := by
    intro cal hc hev
    simp only [handle_deleted, h1, hfind, hc, hev]
  refine ⟨?_, by simpa using hpd, ?_, ?_, ?_⟩
  · rw [hstep, findEntry_saveFields_same mark_synced_keeps_key,
       findEntry_congr_entries (handle_deleted_entries u (engineDict entry) s),
       hfind]
    rfl
  · rw [hstep, saveFields_schedules]
    exact handle_deleted_schedules u (engineDict entry) s
  · intro cal hc
    constructor
    · intro ev hev
      have hrem : (process_time_entry_event env id now wait u t s).remote
          = delete_event s.remote cal.calendar_id ev.gid := by
        rw [hstep, saveFields_remote, hdel_found cal ev hc hev]
      refine ⟨hrem, ?_⟩
      rw [hrem]
      exact delete_event_not_mem s.remote cal.calendar_id ev
    · intro hev
      rw [hstep, saveFields_remote, hdel_absent cal hc hev]
  · intro hc
    rw [hstep, saveFields_remote, hdel_none hc]

/-- Witness for C1: on the concrete deletion fixture the hypotheses hold and
the row ends retained with pending_deletion true and synced true. -/
theorem C1_witness :
    (findEntry sC1 1 5 = some entryC1
      ∧ entryC1.pending_deletion = true
      ∧ ¬ (200 : Rat) - entryC1.updated_at < 60
      ∧ (5 : Int) ≠ 0)
    ∧ findEntry (process_time_entry_event envEmpty id 200 60 1 5 sC1) 1 5
        = some { entryC1 with synced := true } := by
  refine ⟨⟨by decide, by decide, by norm_num [entryC1, entry5], by decide⟩, ?_⟩
  exact (C1_deletion_branch envEmpty 200 60 1 5 sC1 entryC1 (by decide)
    (by decide) (by norm_num [entryC1, entry5]) (by decide)).1

/-- Counterexample to C1 as stated: the concrete deletion run removes the
remote event, and the retained row has synced true, not the claimed synced
false. -/
theorem C1_counterexample :
    (process_time_entry_event envEmpty id 200 60 1 5 sC1).remote.events = []
    ∧ (findEntry (process_time_entry_event envEmpty id 200 60 1 5 sC1) 1 5).map
        (fun r => (r.pending_deletion, r.synced)) = some (true, true) := by
  have hstep := process_step_deleted envEmpty id 200 60 1 5 sC1 entryC1
    (by decide) (by norm_num [entryC1, entry5]) (by decide)
  rw [hstep]
  constructor
  · decide
  · decide

/-- Claim C2 (amended): when an unflagged entry with no calendar on file
resolves to no destination, the run makes no remote call for it (the remote
store is untouched) and schedules nothing, but the engine then marks the
entry synced true: the entry does not remain Pending.  (An entry that already
has a calendar on file behaves differently: a failed resolution there
triggers deletion of its remote event.) -/
theorem C2_no_destination (env : Nat → UserEnv) (now wait : Rat) (u : Nat)
    (t : Int) (s : SyncState) (entry : TogglTimeEntry)
    (hfind : findEntry s u t = some entry)
    (hpd : entry.pending_deletion = false)
    (hcal : entry.calendar = none)
    (hres : resolve (env u).resolver (engineDict entry) = none)
    (hge : ¬ now - entry.updated_at < wait)
    (ht : t ≠ 0) :
    (process_time_entry_event env id now wait u t s).remote = s.remote
      ∧ (process_time_entry_event env id now wait u t s).schedules = s.schedules
      ∧ findEntry (process_time_entry_event env id now wait u t s) u t
          = some { entry with synced := true } := by
  have htid : entry.toggl_id = t := findEntry_key hfind
  have h1 : truthyInt (some (engineDict entry).id) = some t := by
    simp [engineDict, truthyInt, htid, ht]
  have hcre : handle_created env u (engineDict entry) s = s := by
    simp only [handle_created, h1, hfind, hres]
  have hstep : process_time_entry_event env id now wait u t s
      = saveFields s u t (fun r => { r with synced := true }) := by
    rw [process_step_created env id now wait u t s entry hfind hge hpd hcal, hcre]
    rfl
  refine ⟨?_, ?_, ?_⟩
  · rw [hstep, saveFields_remote]
  · rw [hstep, saveFields_schedules]
  · rw [hstep, findEntry_saveFields_same mark_synced_keeps_key, hfind]
    rfl

/-- Witness for C2: the concrete no-destination run leaves the remote store
untouched and marks the row synced. -/
theorem C2_witness :
    (findEntry sC2 1 5 = some entry5
      ∧ entry5.pending_deletion = false
      ∧ entry5.calendar = none
      ∧ resolve (envEmpty 1).resolver (engineDict entry5) = none
      ∧ ¬ (200 : Rat) - entry5.updated_at < 60
      ∧ (5 : Int) ≠ 0)
    ∧ findEntry (process_time_entry_event envEmpty id 200 60 1 5 sC2) 1 5
        = some { entry5 with synced := true } := by
  refine ⟨⟨by decide, by decide, by decide, by decide,
    by norm_num [entry5], by decide⟩, ?_⟩
  exact (C2_no_destination envEmpty 200 60 1 5 sC2 entry5 (by decide)
    (by decide) (by decide) (by decide) (by norm_num [entry5]) (by decide)).2.2

/-- Counterexample to C2 as stated: on the concrete no-destination run the
remote store is untouched but the entry ends with synced true, while the
claim requires it to stay false. -/
theorem C2_counterexample :
    (process_time_entry_event envEmpty id 200 60 1 5 sC2).remote = sC2.remote
    ∧ (findEntry (process_time_entry_event envEmpty id 200 60 1 5 sC2) 1 5).map
        (fun r => r.synced) = some true := by
  have hstep := process_step_created envEmpty id 200 60 1 5 sC2 entry5
    (by decide) (by norm_num [entry5]) (by decide) (by decide)
  rw [hstep]
  constructor
  · decide
  · decide

/-- Claim C3 (code evaluated at the failing input): the entry is read with
updated_at 100, a concurrent transaction then rewrites the row to updated_at
230 with synced false, and the final mark-synced write of the engine still
sets synced true: there is no optimistic updated_at check in the source, even
though the test suite asserts one (test_concurrent_update_prevents_synced_flag)
and the spec requires it. -/
theorem C3_no_optimistic_check :
    (findEntry (process_time_entry_event envDefault interfereC3 200 60 1 5 sC2) 1 5).map
        (fun r => (r.synced, r.updated_at, r.description))
      = some (true, 230, "Updated by webhook")
    ∧ entry5.updated_at ≠ (230 : Rat) := by
  have hstep := process_step_created envDefault interfereC3 200 60 1 5 sC2 entry5
    (by decide) (by norm_num [entry5]) (by decide) (by decide)
  rw [hstep]
  constructor
  · decide
  · norm_num [entry5]

/-- Claim C10 (implicit): the deferred debounce task is keyed on the Toggl
entry id alone, the schedule name carries no user id.  When two different
users each own an entry with the same Toggl id and both runs defer, the second
upsert replaces the first: afterwards a single schedule row exists system-wide
for that id, carrying the args and run time of the second user, the first
user deferred re-check having been overwritten. -/
theorem C10_schedule_key_ignores_user (env : Nat → UserEnv)
    (interfere : SyncState → SyncState) (now1 now2 wait : Rat) (u1 u2 : Nat)
    (t : Int) (s : SyncState) (e1 e2 : TogglTimeEntry)
    (h1 : findEntry s u1 t = some e1)
    (h2 : findEntry s u2 t = some e2)
    (hlt1 : now1 - e1.updated_at < wait)
    (hlt2 : now2 - e2.updated_at < wait)
    (hcount : (s.schedules.filter
        (fun r => r.name == "process_entry_" ++ toString t)).length ≤ 1) :
    ((process_time_entry_event env interfere now1 wait u1 t s).schedules.filter
        (fun r => r.name == "process_entry_" ++ toString t))
      = [{ name := "process_entry_" ++ toString t,
           func := "sync.tasks.process_time_entry_event",
           args := "(" ++ toString u1 ++ ", " ++ toString t ++ ")",
           schedule_type := "ONCE",
           next_run := now1 + (((wait - (now1 - e1.updated_at)).floor + 1 : Int) : Rat) }]
    ∧ ((process_time_entry_event env interfere now2 wait u2 t
          (process_time_entry_event env interfere now1 wait u1 t s)).schedules.filter
        (fun r => r.name == "process_entry_" ++ toString t))
      = [{ name := "process_entry_" ++ toString t,
           func := "sync.tasks.process_time_entry_event",
           args := "(" ++ toString u2 ++ ", " ++ toString t ++ ")",
           schedule_type := "ONCE",
           next_run := now2 + (((wait - (now2 - e2.updated_at)).floor + 1 : Int) : Rat) }] := by
  have hstepA := defer_step env interfere now1 wait u1 t s e1 h1 hlt1
  have hfiltA : ((process_time_entry_event env interfere now1 wait u1 t s).schedules.filter
      (fun r => r.name == "process_entry_" ++ toString t))
      = [{ name := "process_entry_" ++ toString t,
           func := "sync.tasks.process_time_entry_event",
           args := "(" ++ toString u1 ++ ", " ++ toString t ++ ")",
           schedule_type := "ONCE",
           next_run := now1 + (((wait - (now1 - e1.updated_at)).floor + 1 : Int) : Rat) }] := by
    rw [hstepA]
    exact scheduleUpsert_filter_key hcount
  have h2A : findEntry (process_time_entry_event env interfere now1 wait u1 t s) u2 t
      = some e2 := by
    rw [hstepA]
    exact h2
  have hstepB := defer_step env interfere now2 wait u2 t
    (process_time_entry_event env interfere now1 wait u1 t s) e2 h2A hlt2
  have hcountA : ((process_time_entry_event env interfere now1 wait u1 t s).schedules.filter
      (fun r => r.name == "process_entry_" ++ toString t)).length ≤ 1 := by
    rw [hfiltA]
    simp
  refine ⟨hfiltA, ?_⟩
  rw [hstepB]
  exact scheduleUpsert_filter_key hcountA

/-- Witness for C10: two users share Toggl id 7; after both deferred runs a
single schedule row remains, carrying the args of the second user. -/
theorem C10_witness :
    (findEntry sC10 1 7 = some e7a
      ∧ findEntry sC10 2 7 = some e7b
      ∧ (130 : Rat) - e7a.updated_at < 60
      ∧ (130 : Rat) - e7b.updated_at < 60
      ∧ (sC10.schedules.filter
          (fun r => r.name == "process_entry_" ++ toString (7 : Int))).length ≤ 1)
    ∧ ((process_time_entry_event envEmpty id 130 60 2 7
          (process_time_entry_event envEmpty id 130 60 1 7 sC10)).schedules.filter
        (fun r => r.name == "process_entry_" ++ toString (7 : Int)))
      = [{ name := "process_entry_" ++ toString (7 : Int),
           func := "sync.tasks.process_time_entry_event",
           args := "(" ++ toString (2 : Nat) ++ ", " ++ toString (7 : Int) ++ ")",
           schedule_type := "ONCE",
           next_run := 130 + ((((60 : Rat) - ((130 : Rat) - e7b.updated_at)).floor + 1 : Int) : Rat) }] := by
  refine ⟨⟨by decide, by decide, by norm_num [e7a, entry5],
    by norm_num [e7b, entry5], by decide⟩, ?_⟩
  exact (C10_schedule_key_ignores_user envEmpty id 130 130 60 1 2 7 sC10 e7a e7b
    (by decide) (by decide) (by norm_num [e7a, entry5])
    (by norm_num [e7b, entry5]) (by decide)).2

/-- Claim C5: for every invocation of the engine on an entry whose time since
the last local update is below the quiet window, the engine does not process
the entry now: rows and remote store are untouched, and it upserts a single
deferred re-check keyed on the entry, scheduled after the remaining part of
the quiet window rounded up to the next whole second; the upsert replaces any
prior pending re-check with the same key, so at most one deferred re-check is
outstanding per key however many events arrive inside the window. -/
theorem C5_debounce_defers_and_coalesces (env : Nat → UserEnv)
    (interfere : SyncState → SyncState) (now wait : Rat) (u : Nat) (t : Int)
    (s : SyncState) (entry : TogglTimeEntry)
    (hfind : findEntry s u t = some entry)
    (hlt : now - entry.updated_at < wait)
    (hcount : (s.schedules.filter
        (fun r => r.name == "process_entry_" ++ toString t)).length ≤ 1) :
    (process_time_entry_event env interfere now wait u t s).entries = s.entries
    ∧ (process_time_entry_event env interfere now wait u t s).remote = s.remote
    ∧ ((process_time_entry_event env interfere now wait u t s).schedules.filter
        (fun r => r.name == "process_entry_" ++ toString t))
      = [{ name := "process_entry_" ++ toString t,
           func := "sync.tasks.process_time_entry_event",
           args := "(" ++ toString u ++ ", " ++ toString t ++ ")",
           schedule_type := "ONCE",
           next_run := now + (((wait - (now - entry.updated_at)).floor + 1 : Int) : Rat) }]
    ∧ ((process_time_entry_event env interfere now wait u t s).schedules.filter
        (fun r => !(r.name == "process_entry_" ++ toString t)))
      = s.schedules.filter (fun r => !(r.name == "process_entry_" ++ toString t))
    ∧ wait - (now - entry.updated_at)
        ≤ (((wait - (now - entry.updated_at)).floor + 1 : Int) : Rat)
    ∧ (((wait - (now - entry.updated_at)).floor + 1 : Int) : Rat)
        ≤ wait - (now - entry.updated_at) + 1 := by
  have hstep : process_time_entry_event env interfere now wait u t s
      = { s with schedules := (scheduleUpsert s.schedules
            ("process_entry_" ++ toString t)
            "sync.tasks.process_time_entry_event"
            ("(" ++ toString u ++ ", " ++ toString t ++ ")")
            "ONCE"
            (now + (((wait - (now - entry.updated_at)).floor + 1 : Int) : Rat))) } := by
    rw [process_time_entry_event, hfind]
    simp only [if_pos hlt]
  rw [hstep]
  refine ⟨rfl, rfl, scheduleUpsert_filter_key hcount, scheduleUpsert_filter_other,
    ?_, ?_⟩
  · rw [rat_floor_eq_int_floor]
    have := Int.lt_floor_add_one (wait - (now - entry.updated_at))
    push_cast
    linarith
  · rw [rat_floor_eq_int_floor]
    have := Int.floor_le (wait - (now - entry.updated_at))
    push_cast
    linarith

/-- Witness for C5: a concrete deferred run, thirty seconds into a sixty
second window, yields exactly the one expected schedule row. -/
theorem C5_witness :
    (findEntry { entries := [(1, entry5)], remote := ⟨[], 0⟩, schedules := [] } 1 5
        = some entry5
      ∧ (130 : Rat) - entry5.updated_at < 60
      ∧ (([] : List Schedule).filter
          (fun r => r.name == "process_entry_" ++ toString (5 : Int))).length ≤ 1)
    ∧ ((process_time_entry_event envEmpty id 130 60 1 5
          { entries := [(1, entry5)], remote := ⟨[], 0⟩, schedules := [] }).schedules.filter
          (fun r => r.name == "process_entry_" ++ toString (5 : Int)))
        = [{ name := "process_entry_" ++ toString (5 : Int),
             func := "sync.tasks.process_time_entry_event",
             args := "(" ++ toString (1 : Nat) ++ ", " ++ toString (5 : Int) ++ ")",
             schedule_type := "ONCE",
             next_run := 130 + ((((60 : Rat) - ((130 : Rat) - entry5.updated_at)).floor + 1 : Int) : Rat) }] := by
  refine ⟨⟨by decide, by norm_num [entry5], by decide⟩, ?_⟩
  exact (C5_debounce_defers_and_coalesces envEmpty id 130 60 1 5
    { entries := [(1, entry5)], remote := ⟨[], 0⟩, schedules := [] } entry5
    (by decide) (by norm_num [entry5]) (by decide)).2.2.1

/-- A save assigning a calendar and the synced flag keeps the row key. -/
theorem assign_calendar_keeps_key (c : GoogleCal) :
    ∀ r : TogglTimeEntry,
      (({ r with calendar := some c, synced := true } : TogglTimeEntry)).toggl_id
        = r.toggl_id :=
  fun _ => rfl

/-- Deleting by the Google id of the only event of a calendar carrying an
iCalUID leaves no event of that calendar with that iCalUID. -/
theorem countUid_delete_single (r : Remote) (cal uid : String) (ev : RemoteEvent)
    (hfind : findByUid r cal uid = some ev)
    (hcount : countUid r cal uid = 1) :
    countUid (delete_event r cal ev.gid) cal uid = 0 := by
  obtain ⟨p1, hp1, hp1ev⟩ := Option.map_eq_some'.mp hfind
  obtain ⟨p0, hp0⟩ := List.length_eq_one.mp hcount
  have hp1pred := List.find?_some hp1
  have hp1mem : p1 ∈ r.events.filter
      (fun p => p.1 == cal && p.2.icaluid == uid) :=
    List.mem_filter.mpr ⟨List.mem_of_find?_eq_some hp1, hp1pred⟩
  have hp1p0 : p1 = p0 := by
    rw [hp0] at hp1mem
    simpa using hp1mem
  have hnil : (r.events.filter
        (fun p => !(p.1 == cal && p.2.gid == ev.gid))).filter
      (fun p => p.1 == cal && p.2.icaluid == uid) = [] := by
    rw [List.filter_filter]
    apply List.filter_eq_nil_iff.mpr
    intro a ha
    by_cases hqa : (a.1 == cal && a.2.icaluid == uid) = true
    · have hmem : a ∈ r.events.filter
          (fun p => p.1 == cal && p.2.icaluid == uid) :=
        List.mem_filter.mpr ⟨ha, hqa⟩
      rw [hp0] at hmem
      have hap0 : a = p0 := by simpa using hmem
      have hgid : a.2.gid = ev.gid := by
        rw [hap0, ← hp1p0, hp1ev]
      have hqa2 := hqa
      simp only [Bool.and_eq_true, beq_iff_eq] at hqa2
      simp [hqa, hgid, hqa2.1]
    · simp [hqa]
  have h0 : countUid (delete_event r cal ev.gid) cal uid
      = ((r.events.filter
            (fun p => !(p.1 == cal && p.2.gid == ev.gid))).filter
          (fun p => p.1 == cal && p.2.icaluid == uid)).length := rfl
  rw [h0, hnil]
  rfl

/-- Claim C9 (amended): running the engine twice in succession for the same
user and external id without an intervening delete yields exactly one remote
event addressed by the stable key when the entry has an end time on file: the
first run creates it, the second run finds it by the stable key and updates
it in place, allocating no fresh event id; and the adapter adopts the
existing event on a create conflict instead of duplicating.  For a running
entry (no end time), however, the second run takes the delete branch of the
update handler (tasks.py lines 243-247) and removes the event the first run
created, leaving zero remote events, not one. -/
theorem C9_idempotent_upsert (env : Nat → UserEnv) (now1 now2 wait : Rat)
    (u : Nat) (t : Int) (s : SyncState) (entry : TogglTimeEntry)
    (rc : ResolvedCalendar)
    (hfind : findEntry s u t = some entry)
    (ht : t ≠ 0)
    (hpd : entry.pending_deletion = false)
    (hcal : entry.calendar = none)
    (hres : resolve (env u).resolver (engineDict entry) = some rc)
    (hge1 : ¬ now1 - entry.updated_at < wait)
    (hge2 : ¬ now2 - entry.updated_at < wait)
    (hcount0 : countUid s.remote rc.calendar.calendar_id entry.gcal_event_id = 0) :
    countUid (process_time_entry_event env id now1 wait u t s).remote
        rc.calendar.calendar_id entry.gcal_event_id = 1
    ∧ (∀ tend : Rat, entry.end_time = some tend →
        countUid (process_time_entry_event env id now2 wait u t
              (process_time_entry_event env id now1 wait u t s)).remote
            rc.calendar.calendar_id entry.gcal_event_id = 1
        ∧ (process_time_entry_event env id now2 wait u t
              (process_time_entry_event env id now1 wait u t s)).remote.counter
          = (process_time_entry_event env id now1 wait u t s).remote.counter)
    ∧ (entry.end_time = none →
        countUid (process_time_entry_event env id now2 wait u t
              (process_time_entry_event env id now1 wait u t s)).remote
            rc.calendar.calendar_id entry.gcal_event_id = 0)
    ∧ (∀ (r : Remote) (cal : String) (d : GcalData) (ev : RemoteEvent),
        findByUid r cal d.event_id = some ev → create_event r cal d = (r, ev)) := by
  have htid : entry.toggl_id = t := findEntry_key hfind
  have h1 : truthyInt (some (engineDict entry).id) = some t := by
    simp [engineDict, truthyInt, htid, ht]
  have hnone : findByUid s.remote rc.calendar.calendar_id entry.gcal_event_id
      = none := (findByUid_eq_none_iff s.remote rc.calendar.calendar_id
        entry.gcal_event_id).mpr hcount0
  have hnone2 : findByUid s.remote rc.calendar.calendar_id
      (get_gcal_data (env u).meta entry rc.color_id).event_id = none := hnone
  have hcre : handle_created env u (engineDict entry) s
      = saveFields { s with remote := (create_event s.remote
            rc.calendar.calendar_id
            (get_gcal_data (env u).meta entry rc.color_id)).1 } u t
          (fun r => { r with calendar := some rc.calendar, synced := true }) := by
    simp only [handle_created, h1, hfind, hres]
  have hstep1 : process_time_entry_event env id now1 wait u t s
      = saveFields (handle_created env u (engineDict entry) s) u t
          (fun r => { r with synced := true }) := by
    rw [process_step_created env id now1 wait u t s entry hfind hge1 hpd hcal]
    rfl
  have hrem1 : (process_time_entry_event env id now1 wait u t s).remote
      = (create_event s.remote rc.calendar.calendar_id
          (get_gcal_data (env u).meta entry rc.color_id)).1 := by
    rw [hstep1, saveFields_remote, hcre, saveFields_remote]
  have hc1 : countUid (process_time_entry_event env id now1 wait u t s).remote
      rc.calendar.calendar_id entry.gcal_event_id = 1 := by
    rw [hrem1]
    have h2 : countUid (create_event s.remote rc.calendar.calendar_id
          (get_gcal_data (env u).meta entry rc.color_id)).1
          rc.calendar.calendar_id entry.gcal_event_id
        = countUid s.remote rc.calendar.calendar_id entry.gcal_event_id + 1 :=
      countUid_create_miss s.remote rc.calendar.calendar_id
        (get_gcal_data (env u).meta entry rc.color_id) hnone2
    rw [h2, hcount0]
  have hfind1 : findEntry (process_time_entry_event env id now1 wait u t s) u t
      = some { entry with calendar := some rc.calendar, synced := true } := by
    rw [hstep1, findEntry_saveFields_same mark_synced_keeps_key, hcre,
      findEntry_saveFields_same (assign_calendar_keeps_key rc.calendar),
      findEntry_set_remote, hfind]
    rfl
  have hfind1w : findEntry (process_time_entry_event env id now1 wait u t s) u t
      = some (withCal entry rc.calendar) := hfind1
  have hge2' : ¬ now2 - (withCal entry rc.calendar).updated_at < wait := hge2
  have hpd' : (withCal entry rc.calendar).pending_deletion = false := hpd
  have hcalw : (withCal entry rc.calendar).calendar = some rc.calendar := rfl
  have hstep2 := process_step_updated env id now2 wait u t
    (process_time_entry_event env id now1 wait u t s)
    (withCal entry rc.calendar) rc.calendar hfind1w hge2' hpd' hcalw
  obtain ⟨ev2, hev2⟩ := findByUid_isSome_of_countUid_pos
    (show 0 < countUid (process_time_entry_event env id now1 wait u t s).remote
      rc.calendar.calendar_id entry.gcal_event_id by rw [hc1]; exact Nat.one_pos)
  have h1x : truthyInt (some (engineDict (withCal entry rc.calendar)).id)
      = some t := h1
  have hresx : resolve (env u).resolver (engineDict (withCal entry rc.calendar))
      = some rc := hres
  have hev2x : findByUid (process_time_entry_event env id now1 wait u t s).remote
      rc.calendar.calendar_id
      (TogglTimeEntry.gcal_event_id (withCal entry rc.calendar)) = some ev2 := hev2
  refine ⟨hc1, ?_, ?_, ?_⟩
  · intro tend hend
    have hendx : (withCal entry rc.calendar).end_time = some tend := hend
    have hupd : ∃ gd : GcalData,
        handle_updated env u (engineDict (withCal entry rc.calendar))
            (process_time_entry_event env id now1 wait u t s)
          = saveFields { (process_time_entry_event env id now1 wait u t s) with
              remote := update_event
                (process_time_entry_event env id now1 wait u t s).remote
                rc.calendar.calendar_id ev2.gid (some gd.summary) (some gd.start)
                (some gd.end_) (some gd.description) gd.color_id } u t
              (fun r => { r with synced := true }) := by
      refine ⟨get_gcal_data (env u).meta (withCal entry rc.calendar) rc.color_id, ?_⟩
      simp only [handle_updated, h1x, hfind1w, withCal_calendar, hendx, hresx, hev2x]
      simp
    obtain ⟨gd, hupd⟩ := hupd
    have hrem2 : (process_time_entry_event env id now2 wait u t
          (process_time_entry_event env id now1 wait u t s)).remote
        = update_event (process_time_entry_event env id now1 wait u t s).remote
            rc.calendar.calendar_id ev2.gid (some gd.summary) (some gd.start)
            (some gd.end_) (some gd.description) gd.color_id := by
      rw [hstep2]
      rw [saveFields_remote]
      rw [hupd]
      rfl
    constructor
    · rw [hrem2, countUid_update_event]
      exact hc1
    · rw [hrem2, counter_update_event]
  · intro hend
    have hendx : (withCal entry rc.calendar).end_time = none := hend
    have hdel : handle_updated env u (engineDict (withCal entry rc.calendar))
        (process_time_entry_event env id now1 wait u t s)
      = handle_deleted u (engineDict (withCal entry rc.calendar))
          (process_time_entry_event env id now1 wait u t s) := by
      simp only [handle_updated, h1x, hfind1w, withCal_calendar, hendx]
    have hdd : handle_deleted u (engineDict (withCal entry rc.calendar))
        (process_time_entry_event env id now1 wait u t s)
      = { (process_time_entry_event env id now1 wait u t s) with
          remote := delete_event
            (process_time_entry_event env id now1 wait u t s).remote
            rc.calendar.calendar_id ev2.gid } := by
      simp only [handle_deleted, h1x, hfind1w, withCal_calendar, hev2x]
    have hrem2 : (process_time_entry_event env id now2 wait u t
          (process_time_entry_event env id now1 wait u t s)).remote
        = delete_event (process_time_entry_event env id now1 wait u t s).remote
            rc.calendar.calendar_id ev2.gid := by
      rw [hstep2]
      rw [saveFields_remote]
      rw [hdel, hdd]
      rfl
    rw [hrem2]
    exact countUid_delete_single
      (process_time_entry_event env id now1 wait u t s).remote
      rc.calendar.calendar_id entry.gcal_event_id ev2 hev2 hc1
  · intro r cal d ev h
    exact create_event_conflict r cal d ev h

/-- The minimum search returns none exactly on the empty list. -/
theorem minByOrder_eq_none_iff (l : List EntityToCalMapping) :
    minByOrder l = none ↔ l = [] := by
  cases l with
  | nil => simp [minByOrder]
  | cons a l =>
    simp only [minByOrder]
    cases minByOrder l with
    | none => simp
    | some m2 =>
      by_cases hlt : m2.process_order < a.process_order <;> simp [hlt]

/-- The minimum search returns a member of the list. -/
theorem minByOrder_mem : ∀ {l : List EntityToCalMapping}
    {m : EntityToCalMapping}, minByOrder l = some m → m ∈ l := by
  intro l
  induction l with
  | nil => intro m h; simp [minByOrder] at h
  | cons a l ih =>
    intro m h
    rw [minByOrder] at h
    cases hml : minByOrder l with
    | none =>
      rw [hml] at h
      have h2 : some a = some m := h
      have h3 := Option.some.inj h2
      rw [← h3]
      exact List.mem_cons_self a l
    | some m2 =>
      rw [hml] at h
      have h2 : (if m2.process_order < a.process_order then some m2 else some a)
          = some m := h
      by_cases hlt : m2.process_order < a.process_order
      · rw [if_pos hlt] at h2
        have h3 := Option.some.inj h2
        rw [← h3]
        exact List.mem_cons_of_mem a (ih hml)
      · rw [if_neg hlt] at h2
        have h3 := Option.some.inj h2
        rw [← h3]
        exact List.mem_cons_self a l

/-- The minimum search returns an element of least process_order. -/
theorem minByOrder_le : ∀ {l : List EntityToCalMapping}
    {m : EntityToCalMapping}, minByOrder l = some m →
    ∀ x ∈ l, m.process_order ≤ x.process_order := by
  intro l
  induction l with
  | nil => intro m h; simp [minByOrder] at h
  | cons a l ih =>
    intro m h x hx
    rw [minByOrder] at h
    cases hml : minByOrder l with
    | none =>
      rw [hml] at h
      have h2 : some a = some m := h
      have h3 := Option.some.inj h2
      have hl : l = [] := (minByOrder_eq_none_iff l).mp hml
      subst hl
      have hxa : x = a := by simpa using hx
      rw [hxa, ← h3]
    | some m2 =>
      rw [hml] at h
      have h2 : (if m2.process_order < a.process_order then some m2 else some a)
          = some m := h
      by_cases hlt : m2.process_order < a.process_order
      · rw [if_pos hlt] at h2
        have h3 := Option.some.inj h2
        rcases List.mem_cons.mp hx with hxa | hxl
        · rw [← h3, hxa]
          exact le_of_lt hlt
        · rw [← h3]
          exact ih hml x hxl
      · rw [if_neg hlt] at h2
        have h3 := Option.some.inj h2
        push_neg at hlt
        rcases List.mem_cons.mp hx with hxa | hxl
        · rw [← h3, hxa]
        · rw [← h3]
          exact le_trans hlt (ih hml x hxl)

/-- The unique-row lookup returns a row with the looked-up type and id. -/
theorem findMapping_some {db : ResolverDB} {ty : EntityType} {i : Int}
    {m : EntityToCalMapping} (h : findMapping db ty i = some m) :
    m ∈ db.mappings ∧ m.entity_type = ty ∧ m.entity_id = i := by
  have hmem := List.mem_of_find?_eq_some h
  have hp := List.find?_some h
  simp only [Bool.and_eq_true, decide_eq_true_eq] at hp
  exact ⟨hmem, hp.1, hp.2⟩

/-- A mapping row for the entity makes the unique-row lookup succeed. -/
theorem findMapping_isSome_of_hasMapping {db : ResolverDB} {ty : EntityType}
    {i : Int} (h : hasMapping db ty i) :
    ∃ m, findMapping db ty i = some m := by
  rcases h with ⟨m, hmem, hty, hid⟩
  have hs : (db.mappings.find? (fun m =>
      decide (m.entity_type = ty) && decide (m.entity_id = i))).isSome := by
    rw [List.find?_isSome]
    exact ⟨m, hmem, by simp [hty, hid]⟩
  rcases Option.isSome_iff_exists.mp hs with ⟨m2, hm2⟩
  exact ⟨m2, hm2⟩

/-- Absence of any mapping row for the entity makes the lookup fail. -/
theorem findMapping_eq_none_of_not_hasMapping {db : ResolverDB}
    {ty : EntityType} {i : Int} (h : ¬ hasMapping db ty i) :
    findMapping db ty i = none := by
  unfold findMapping
  rw [List.find?_eq_none]
  intro m hmem hp
  simp only [Bool.and_eq_true, decide_eq_true_eq] at hp
  exact h ⟨m, hmem, hp.1, hp.2⟩

/-- An empty tag list yields an empty effective id list. -/
theorem effectiveTagIds_nil (db : ResolverDB) : effectiveTagIds db [] = [] := rfl

/-- When some effective tag id of the entry has a mapping, the tag step picks
the matching tag mapping of least process_order and returns its calendar and
color. -/
theorem tagStep_of_match {db : ResolverDB} {e : TimeEntryDict}
    (h : ∃ m, matchesTagMapping db (effectiveTagIds db e.tagList) m) :
    ∃ m, matchesTagMapping db (effectiveTagIds db e.tagList) m
      ∧ (∀ m2, matchesTagMapping db (effectiveTagIds db e.tagList) m2 →
          m.process_order ≤ m2.process_order)
      ∧ tagStep db e = some { calendar := m.gcal, color_id := some m.get_color_id } := by
  rcases h with ⟨m0, hmem0, hty0, hid0⟩
  have hlne : e.tagList.isEmpty = false := by
    cases hl : e.tagList with
    | nil =>
      rw [hl] at hid0
      rw [effectiveTagIds_nil] at hid0
      simp at hid0
    | cons a l => rfl
  have hidsne : (effectiveTagIds db e.tagList).isEmpty = false := by
    cases hids : effectiveTagIds db e.tagList with
    | nil => rw [hids] at hid0; simp at hid0
    | cons a l => rfl
  have hmemf : m0 ∈ db.mappings.filter (fun m =>
      decide (m.entity_type = EntityType.tag)
        && decide (m.entity_id ∈ effectiveTagIds db e.tagList)) :=
    List.mem_filter.mpr ⟨hmem0, by simp [hty0, hid0]⟩
  have hfne : db.mappings.filter (fun m =>
      decide (m.entity_type = EntityType.tag)
        && decide (m.entity_id ∈ effectiveTagIds db e.tagList)) ≠ [] :=
    List.ne_nil_of_mem hmemf
  cases hmin : minByOrder (db.mappings.filter (fun m =>
      decide (m.entity_type = EntityType.tag)
        && decide (m.entity_id ∈ effectiveTagIds db e.tagList))) with
  | none => exact absurd ((minByOrder_eq_none_iff _).mp hmin) hfne
  | some m =>
    have hmmem := minByOrder_mem hmin
    have hmf := List.mem_filter.mp hmmem
    have hmp : m.entity_type = EntityType.tag
        ∧ m.entity_id ∈ effectiveTagIds db e.tagList := by
      have := hmf.2
      simpa using this
    refine ⟨m, ⟨hmf.1, hmp.1, hmp.2⟩, ?_, ?_⟩
    · intro m2 hm2
      exact minByOrder_le hmin m2
        (List.mem_filter.mpr ⟨hm2.1, by simp [hm2.2.1, hm2.2.2]⟩)
    · simp [tagStep, hlne, hidsne, hmin]

/-- When no effective tag id of the entry has a mapping, the tag step fails. -/
theorem tagStep_of_no_match {db : ResolverDB} {e : TimeEntryDict}
    (h : noTagMatch db e) : tagStep db e = none := by
  by_cases hl : e.tagList.isEmpty
  · simp [tagStep, hl]
  · by_cases hids : (effectiveTagIds db e.tagList).isEmpty
    · simp [tagStep, hl, hids]
    · cases hmin : minByOrder (db.mappings.filter (fun m =>
          decide (m.entity_type = EntityType.tag)
            && decide (m.entity_id ∈ effectiveTagIds db e.tagList))) with
      | none => simp [tagStep, hl, hids, hmin]
      | some m =>
        have hmf := List.mem_filter.mp (minByOrder_mem hmin)
        have hmp : m.entity_type = EntityType.tag
            ∧ m.entity_id ∈ effectiveTagIds db e.tagList := by
          have := hmf.2
          simpa using this
        exact absurd ⟨hmf.1, hmp.1, hmp.2⟩ (h m)

/-- A present project key with a mapping makes the project step return it. -/
theorem projectStep_some_of {db : ResolverDB} {e : TimeEntryDict} {p : Int}
    {m : EntityToCalMapping} (hp : orKey e.project_id e.pid = some p)
    (hm : findMapping db EntityType.project p = some m) :
    projectStep db e = some { calendar := m.gcal, color_id := some m.get_color_id } := by
  simp [projectStep, hp, hm]

/-- Without a project mapping the project step fails. -/
theorem projectStep_none_of {db : ResolverDB} {e : TimeEntryDict}
    (h : noProjectMatch db e) : projectStep db e = none := by
  cases hp : orKey e.project_id e.pid with
  | none => simp [projectStep, hp]
  | some p =>
    have h1 := findMapping_eq_none_of_not_hasMapping (h p hp)
    simp [projectStep, hp, h1]

/-- A present workspace key with a workspace mapping makes the workspace step
return it. -/
theorem workspaceStep_ws_some {db : ResolverDB} {e : TimeEntryDict} {w : Int}
    {m : EntityToCalMapping} (hw : orKey e.workspace_id e.wid = some w)
    (hm : findMapping db EntityType.workspace w = some m) :
    workspaceStep db e = some { calendar := m.gcal, color_id := some m.get_color_id } := by
  simp [workspaceStep, hw, hm]

/-- With no workspace mapping but an organization mapping of the workspace,
the workspace step returns the organization mapping. -/
theorem workspaceStep_org_some {db : ResolverDB} {e : TimeEntryDict} {w : Int}
    {ws : TogglWorkspace} {o : Int} {m : EntityToCalMapping}
    (hw : orKey e.workspace_id e.wid = some w)
    (hmn : findMapping db EntityType.workspace w = none)
    (hws : db.workspaces.find? (fun x => x.toggl_id == w) = some ws)
    (ho : truthyInt ws.organization_id = some o)
    (hm : findMapping db EntityType.organization o = some m) :
    workspaceStep db e = some { calendar := m.gcal, color_id := some m.get_color_id } := by
  simp [workspaceStep, hw, hmn, hws, ho, hm]

/-- Without workspace and organization mappings the workspace step fails. -/
theorem workspaceStep_none_of {db : ResolverDB} {e : TimeEntryDict}
    (h : noWorkspaceOrOrgMatch db e) : workspaceStep db e = none := by
  cases hw : orKey e.workspace_id e.wid with
  | none => simp [workspaceStep, hw]
  | some w =>
    rcases h w hw with ⟨hnw, hno⟩
    have h1 := findMapping_eq_none_of_not_hasMapping hnw
    cases hws : db.workspaces.find? (fun x => x.toggl_id == w) with
    | none => simp [workspaceStep, hw, h1, hws]
    | some ws =>
      cases ho : truthyInt ws.organization_id with
      | none => simp [workspaceStep, hw, h1, hws, ho]
      | some o =>
        have h2 := findMapping_eq_none_of_not_hasMapping (hno ws hws o ho)
        simp [workspaceStep, hw, h1, hws, ho, h2]

/-- The default step returns the default calendar with no color. -/
theorem defaultStep_eq (db : ResolverDB) :
    defaultStep db = (get_default_for_user db).map
      (fun c => { calendar := c, color_id := none }) := by
  unfold defaultStep
  cases get_default_for_user db <;> rfl

/-- Resolution returns whatever the tag step returns when it succeeds. -/
theorem resolve_tag {db : ResolverDB} {e : TimeEntryDict} {r : ResolvedCalendar}
    (h : tagStep db e = some r) : resolve db e = some r := by
  simp [resolve, h]

/-- Resolution falls through to the project step. -/
theorem resolve_project {db : ResolverDB} {e : TimeEntryDict}
    {r : ResolvedCalendar} (h1 : tagStep db e = none)
    (h2 : projectStep db e = some r) : resolve db e = some r := by
  simp [resolve, h1, h2]

/-- Resolution falls through to the workspace and organization step. -/
theorem resolve_workspace {db : ResolverDB} {e : TimeEntryDict}
    {r : ResolvedCalendar} (h1 : tagStep db e = none)
    (h2 : projectStep db e = none) (h3 : workspaceStep db e = some r) :
    resolve db e = some r := by
  simp [resolve, h1, h2, h3]

/-- Resolution falls through to the default calendar step. -/
theorem resolve_default {db : ResolverDB} {e : TimeEntryDict}
    (h1 : tagStep db e = none) (h2 : projectStep db e = none)
    (h3 : workspaceStep db e = none) : resolve db e = defaultStep db := by
  simp [resolve, h1, h2, h3]

/-- Claim C4: the resolver honors the strict priority tag mapping of lowest
process_order with its color, then project mapping, then workspace mapping,
then the mapping of the organization of the workspace, then the default
calendar with no color, and returns none exactly when nothing applies and no
default calendar exists; tag identifiers supplied as names are first resolved
to ids through the tag name table. -/
theorem C4_resolver_priority (db : ResolverDB) (e : TimeEntryDict) :
    (∀ ns : List String, ns ≠ [] →
        effectiveTagIds db (ns.map TagRef.byName)
          = (db.tags.filter (fun tg => decide (tg.name ∈ ns))).map
              (fun tg => tg.toggl_id))
    ∧ ((∃ m, matchesTagMapping db (effectiveTagIds db e.tagList) m) →
        ∃ m, matchesTagMapping db (effectiveTagIds db e.tagList) m
          ∧ (∀ m2, matchesTagMapping db (effectiveTagIds db e.tagList) m2 →
              m.process_order ≤ m2.process_order)
          ∧ resolve db e = some { calendar := m.gcal, color_id := some m.get_color_id })
    ∧ (∀ p, noTagMatch db e → orKey e.project_id e.pid = some p →
        hasMapping db EntityType.project p →
        ∃ m ∈ db.mappings, m.entity_type = EntityType.project ∧ m.entity_id = p
          ∧ resolve db e = some { calendar := m.gcal, color_id := some m.get_color_id })
    ∧ (∀ w, noTagMatch db e → noProjectMatch db e →
        orKey e.workspace_id e.wid = some w →
        hasMapping db EntityType.workspace w →
        ∃ m ∈ db.mappings, m.entity_type = EntityType.workspace ∧ m.entity_id = w
          ∧ resolve db e = some { calendar := m.gcal, color_id := some m.get_color_id })
    ∧ (∀ w ws o, noTagMatch db e → noProjectMatch db e →
        orKey e.workspace_id e.wid = some w →
        ¬ hasMapping db EntityType.workspace w →
        db.workspaces.find? (fun x => x.toggl_id == w) = some ws →
        truthyInt ws.organization_id = some o →
        hasMapping db EntityType.organization o →
        ∃ m ∈ db.mappings, m.entity_type = EntityType.organization ∧ m.entity_id = o
          ∧ resolve db e = some { calendar := m.gcal, color_id := some m.get_color_id })
    ∧ (noTagMatch db e → noProjectMatch db e → noWorkspaceOrOrgMatch db e →
        resolve db e = (get_default_for_user db).map
          (fun c => { calendar := c, color_id := none })) := by
  refine ⟨?_, ?_, ?_, ?_, ?_, ?_⟩
  · intro ns hns
    cases ns with
    | nil => exact absurd rfl hns
    | cons n ns2 =>
      simp only [effectiveTagIds, List.map_cons, List.head?_cons, resolveTagNames]
      congr 1
      apply List.filter_congr
      intro tg htg
      rw [Bool.eq_iff_iff]
      simp only [List.any_eq_true, decide_eq_true_eq]
      constructor
      · rintro ⟨r, hr, hre⟩
        subst hre
        rcases List.mem_cons.mp hr with heq | hmem
        · have hn : tg.name = n := by
            injection heq
          rw [hn]
          exact List.mem_cons_self n ns2
        · rcases List.mem_map.mp hmem with ⟨x, hx, hxe⟩
          have hx2 : x = tg.name := by
            injection hxe
          rw [← hx2]
          exact List.mem_cons_of_mem n hx
      · intro hmem
        refine ⟨TagRef.byName tg.name, ?_, rfl⟩
        rcases List.mem_cons.mp hmem with heq | h2
        · rw [heq]
          exact List.mem_cons_self (TagRef.byName n) (ns2.map TagRef.byName)
        · exact List.mem_cons_of_mem (TagRef.byName n)
            (List.mem_map_of_mem TagRef.byName h2)
  · intro h
    rcases tagStep_of_match h with ⟨m, hm, hmin, hstep⟩
    exact ⟨m, hm, hmin, resolve_tag hstep⟩
  · intro p hnt hp hhas
    obtain ⟨m, hm⟩ := findMapping_isSome_of_hasMapping hhas
    obtain ⟨hmem, hty, hid⟩ := findMapping_some hm
    exact ⟨m, hmem, hty, hid,
      resolve_project (tagStep_of_no_match hnt) (projectStep_some_of hp hm)⟩
  · intro w hnt hnp hw hhas
    obtain ⟨m, hm⟩ := findMapping_isSome_of_hasMapping hhas
    obtain ⟨hmem, hty, hid⟩ := findMapping_some hm
    exact ⟨m, hmem, hty, hid,
      resolve_workspace (tagStep_of_no_match hnt) (projectStep_none_of hnp)
        (workspaceStep_ws_some hw hm)⟩
  · intro w ws o hnt hnp hw hnhas hws ho hhas
    obtain ⟨m, hm⟩ := findMapping_isSome_of_hasMapping hhas
    obtain ⟨hmem, hty, hid⟩ := findMapping_some hm
    exact ⟨m, hmem, hty, hid,
      resolve_workspace (tagStep_of_no_match hnt) (projectStep_none_of hnp)
        (workspaceStep_org_some hw
          (findMapping_eq_none_of_not_hasMapping hnhas) hws ho hm)⟩
  · intro h1 h2 h3
    rw [resolve_default (tagStep_of_no_match h1) (projectStep_none_of h2)
      (workspaceStep_none_of h3), defaultStep_eq]

/-- Witness for C4: a concrete database with a single tag mapping resolves to
that mapping. -/
theorem C4_witness :
    (∃ m, matchesTagMapping dbC4 (effectiveTagIds dbC4 eC4.tagList) m)
    ∧ (∃ m, matchesTagMapping dbC4 (effectiveTagIds dbC4 eC4.tagList) m
        ∧ (∀ m2, matchesTagMapping dbC4 (effectiveTagIds dbC4 eC4.tagList) m2 →
            m.process_order ≤ m2.process_order)
        ∧ resolve dbC4 eC4 = some { calendar := m.gcal, color_id := some m.get_color_id }) := by
  have hmatch : matchesTagMapping dbC4 (effectiveTagIds dbC4 eC4.tagList) mapTag50 :=
    ⟨by decide, by decide, by decide⟩
  exact ⟨⟨mapTag50, hmatch⟩, (C4_resolver_priority dbC4 eC4).2.1 ⟨mapTag50, hmatch⟩⟩

/-- Witness for C9: on the concrete creation fixture with a default calendar,
two successive runs leave exactly one remote event with the stable key. -/
theorem C9_witness :
    (findEntry sC2 1 5 = some entry5
      ∧ (5 : Int) ≠ 0
      ∧ entry5.pending_deletion = false
      ∧ entry5.calendar = none
      ∧ entry5.end_time = some 3600
      ∧ resolve (envDefault 1).resolver (engineDict entry5)
          = some { calendar := cal0, color_id := none }
      ∧ ¬ (200 : Rat) - entry5.updated_at < 60
      ∧ ¬ (300 : Rat) - entry5.updated_at < 60
      ∧ countUid sC2.remote cal0.calendar_id entry5.gcal_event_id = 0)
    ∧ countUid (process_time_entry_event envDefault id 300 60 1 5
          (process_time_entry_event envDefault id 200 60 1 5 sC2)).remote
        (({ calendar := cal0, color_id := none } : ResolvedCalendar)).calendar.calendar_id
        entry5.gcal_event_id = 1 := by
  refine ⟨⟨by decide, by decide, by decide, by decide, by decide, by decide,
    by norm_num [entry5], by norm_num [entry5], by decide⟩, ?_⟩
  exact ((C9_idempotent_upsert envDefault 200 300 60 1 5 sC2 entry5
    { calendar := cal0, color_id := none } (by decide) (by decide)
    (by decide) (by decide) (by decide) (by norm_num [entry5])
    (by norm_num [entry5]) (by decide)).2.1 3600 (by decide)).1

/-- Counterexample to C9 as stated: for a running entry the first run creates
the remote event, but the second run removes it through the delete branch of
the update handler, leaving zero remote events with the stable key instead of
the claimed exactly one. -/
theorem C9_counterexample :
    countUid (process_time_entry_event envDefault id 200 60 1 5 sC9).remote
        "cal-primary" "toggl5" = 1
    ∧ countUid (process_time_entry_event envDefault id 300 60 1 5
          (process_time_entry_event envDefault id 200 60 1 5 sC9)).remote
        "cal-primary" "toggl5" = 0 := by
  have hstep1 := process_step_created envDefault id 200 60 1 5 sC9 entryC9
    (by decide) (by norm_num [entryC9, entry5]) (by decide) (by decide)
  have hfind1 : findEntry (process_time_entry_event envDefault id 200 60 1 5 sC9)
      1 5 = some (withCal entryC9 cal0) := by
    rw [hstep1]
    decide
  have hstep2 := process_step_updated envDefault id 300 60 1 5
    (process_time_entry_event envDefault id 200 60 1 5 sC9)
    (withCal entryC9 cal0) cal0 hfind1
    (by norm_num [withCal, entryC9, entry5]) (by decide) rfl
  constructor
  · rw [hstep1]
    decide
  · rw [hstep2, hstep1]
    decide

/-- The reconciliation decision for one row preserves the row key. -/
theorem validate_row_key (lookup : Nat → String → Except String (Option RemoteEvent))
    (u : SyncUser) (batch : List Int) :
    ∀ p, (validate_row lookup u batch p).1 = p.1
      ∧ (validate_row lookup u batch p).2.toggl_id = p.2.toggl_id := by
  intro p
  unfold validate_row
  by_cases hc : (p.1 == u.uid && p.2.synced && !p.2.pending_deletion
      && batch.contains p.2.toggl_id) = true
  · rw [if_pos hc]
    cases lookup u.uid p.2.gcal_event_id with
    | error m => exact ⟨rfl, rfl⟩
    | ok o =>
      cases o with
      | none => exact ⟨rfl, rfl⟩
      | some ev =>
        by_cases hsum : ev.summary = expected_summary p.2
        · simp [hsum]
        · simp [hsum]
  · rw [if_neg hc]; exact ⟨rfl, rfl⟩

/-- The reconciliation decision leaves rows of other users alone. -/
theorem validate_row_other (lookup : Nat → String → Except String (Option RemoteEvent))
    (u : SyncUser) (batch : List Int) (p : Nat × TogglTimeEntry)
    (h : p.1 ≠ u.uid) : validate_row lookup u batch p = p := by
  unfold validate_row
  rw [if_neg (by simp [h])]

/-- A key-preserving map commutes with a keyed lookup. -/
theorem lookupRow_map_keyed {g : (Nat × TogglTimeEntry) → (Nat × TogglTimeEntry)}
    (hg : ∀ p, (g p).1 = p.1 ∧ (g p).2.toggl_id = p.2.toggl_id)
    (u : Nat) (t : Int) (l : List (Nat × TogglTimeEntry)) :
    lookupRow u t (l.map g) = (lookupRow u t l).map g := by
  unfold lookupRow
  rw [List.find?_map]
  have hp : (rowPred u t ∘ g) = rowPred u t := by
    funext p
    simp [rowPred, Function.comp, (hg p).1, (hg p).2]
  rw [hp]

/-- The pass of a different user leaves a row of this user unchanged. -/
theorem validate_user_entries_ne (lookup : Nat → String → Except String (Option RemoteEvent))
    (cap : Nat) (v : SyncUser) (l : List (Nat × TogglTimeEntry)) (u2 : Nat)
    (t : Int) (hne : v.uid ≠ u2) :
    lookupRow u2 t (validate_user_entries lookup cap v l) = lookupRow u2 t l := by
  unfold validate_user_entries
  by_cases hc : (!v.connected) = true
  · rw [if_pos hc]
  · rw [if_neg hc]
    rw [lookupRow_map_keyed (validate_row_key lookup v (validate_batch cap v l))]
    cases hl : lookupRow u2 t l with
    | none => rfl
    | some p =>
      have hk := (lookupRow_key hl).1
      have hid : validate_row lookup v (validate_batch cap v l) p = p :=
        validate_row_other lookup v (validate_batch cap v l) p
          (by rw [hk]; exact fun hx => hne hx.symm)
      simp [hid]

/-- The pass of a different user keeps the candidate batch of this user. -/
theorem validate_user_entries_filter_cand
    (lookup : Nat → String → Except String (Option RemoteEvent)) (cap : Nat)
    (v : SyncUser) (l : List (Nat × TogglTimeEntry)) (u : SyncUser)
    (hne : v.uid ≠ u.uid) :
    (validate_user_entries lookup cap v l).filter (fun p =>
        p.1 == u.uid && p.2.synced && !p.2.pending_deletion)
      = l.filter (fun p => p.1 == u.uid && p.2.synced && !p.2.pending_deletion) := by
  unfold validate_user_entries
  by_cases hc : (!v.connected) = true
  · rw [if_pos hc]
  · rw [if_neg hc]
    have hpred : ((fun p : Nat × TogglTimeEntry =>
        p.1 == u.uid && p.2.synced && !p.2.pending_deletion)
          ∘ validate_row lookup v (validate_batch cap v l))
        = fun p : Nat × TogglTimeEntry =>
            p.1 == u.uid && p.2.synced && !p.2.pending_deletion := by
      funext p
      by_cases hpv : p.1 = v.uid
      · have h1 := (validate_row_key lookup v (validate_batch cap v l) p).1
        have h2 : (p.1 == u.uid) = false := by
          rw [hpv]
          simp only [beq_eq_false_iff_ne, ne_eq]
          exact hne
        simp [Function.comp, h1, h2]
      · have hid := validate_row_other lookup v (validate_batch cap v l) p hpv
        simp [Function.comp, hid]
    rw [List.filter_map, hpred]
    have hid : ∀ p ∈ l.filter (fun p : Nat × TogglTimeEntry =>
        p.1 == u.uid && p.2.synced && !p.2.pending_deletion),
        validate_row lookup v (validate_batch cap v l) p = id p := by
      intro p hp
      have hm := (List.mem_filter.mp hp).2
      have hpu : p.1 = u.uid := by
        have := hm
        simp only [Bool.and_eq_true, beq_iff_eq] at this
        exact this.1.1
      exact validate_row_other lookup v (validate_batch cap v l) p
        (by rw [hpu]; exact fun hx => hne hx.symm)
    rw [List.map_congr_left hid, List.map_id]

/-- A fold over users with no matching uid leaves a row of this user alone. -/
theorem validate_fold_ne (lookup : Nat → String → Except String (Option RemoteEvent))
    (cap : Nat) (rest : List SyncUser) (u2 : Nat) (t : Int) :
    ∀ acc, (∀ v ∈ rest, v.uid ≠ u2) →
      lookupRow u2 t (rest.foldl
          (fun a v => validate_user_entries lookup cap v a) acc)
        = lookupRow u2 t acc := by
  induction rest with
  | nil => intro acc _; rfl
  | cons v rest ih =>
    intro acc h
    simp only [List.foldl_cons]
    rw [ih _ (fun w hw => h w (List.mem_cons_of_mem v hw)),
      validate_user_entries_ne lookup cap v acc u2 t (h v (List.mem_cons_self v rest))]

/-- The pass of the owning user applies the reconciliation outcome to a
candidate row, provided the batch cap is not exceeded. -/
theorem validate_user_step (lookup : Nat → String → Except String (Option RemoteEvent))
    (cap : Nat) (u : SyncUser) (acc entries0 : List (Nat × TogglTimeEntry))
    (e : TogglTimeEntry)
    (hconn : u.connected = true)
    (hrow : lookupRow u.uid e.toggl_id acc = some (u.uid, e))
    (hs : e.synced = true) (hp : e.pending_deletion = false)
    (hfilt : acc.filter (fun p => p.1 == u.uid && p.2.synced && !p.2.pending_deletion)
      = entries0.filter (fun p => p.1 == u.uid && p.2.synced && !p.2.pending_deletion))
    (hcap : (entries0.filter (fun p =>
      p.1 == u.uid && p.2.synced && !p.2.pending_deletion)).length ≤ cap) :
    lookupRow u.uid e.toggl_id (validate_user_entries lookup cap u acc)
      = some (u.uid, reconcileEntry lookup u e) := by
  unfold validate_user_entries
  rw [if_neg (by simp [hconn])]
  rw [lookupRow_map_keyed (validate_row_key lookup u (validate_batch cap u acc))]
  rw [hrow]
  have hmemf : (u.uid, e) ∈ acc.filter (fun p =>
      p.1 == u.uid && p.2.synced && !p.2.pending_deletion) := by
    apply List.mem_filter.mpr
    refine ⟨lookupRow_mem hrow, ?_⟩
    simp [hs, hp]
  have hfull : validate_batch cap u acc
      = (acc.filter (fun p =>
          p.1 == u.uid && p.2.synced && !p.2.pending_deletion)).map
          (fun p => p.2.toggl_id) := by
    unfold validate_batch
    apply List.take_of_length_le
    rw [List.length_map, hfilt]
    exact hcap
  have hbatch : e.toggl_id ∈ validate_batch cap u acc := by
    rw [hfull]
    exact List.mem_map.mpr ⟨(u.uid, e), hmemf, rfl⟩
  have hrowv : validate_row lookup u (validate_batch cap u acc) (u.uid, e)
      = (u.uid, reconcileEntry lookup u e) := by
    unfold validate_row
    rw [if_pos (by simp [hs, hp, hbatch])]
    unfold reconcileEntry
    cases lookup u.uid e.gcal_event_id with
    | error m => rfl
    | ok o =>
      cases o with
      | none => rfl
      | some ev =>
        by_cases hsum : ev.summary = expected_summary e
        · simp [hsum]
        · simp [hsum]
  simp [hrowv]

/-- The full reconciliation fold applies the reconciliation outcome to a
candidate row of a connected user occurring once in the user list. -/
theorem validate_fold_row (lookup : Nat → String → Except String (Option RemoteEvent))
    (cap : Nat) (u : SyncUser) (e : TogglTimeEntry)
    (hconn : u.connected = true) (hs : e.synced = true)
    (hp : e.pending_deletion = false) :
    ∀ (users : List SyncUser) (acc entries0 : List (Nat × TogglTimeEntry)),
      users.filter (fun v => v.uid == u.uid) = [u] →
      lookupRow u.uid e.toggl_id acc = some (u.uid, e) →
      acc.filter (fun p => p.1 == u.uid && p.2.synced && !p.2.pending_deletion)
        = entries0.filter (fun p => p.1 == u.uid && p.2.synced && !p.2.pending_deletion) →
      (entries0.filter (fun p =>
        p.1 == u.uid && p.2.synced && !p.2.pending_deletion)).length ≤ cap →
      lookupRow u.uid e.toggl_id
          (users.foldl (fun a v => validate_user_entries lookup cap v a) acc)
        = some (u.uid, reconcileEntry lookup u e) := by
  intro users
  induction users with
  | nil => intro acc entries0 hfu _ _ _; simp at hfu
  | cons v rest ih =>
    intro acc entries0 hfu hrow hfilt hcap
    simp only [List.foldl_cons]
    by_cases hv : v.uid = u.uid
    · have hfc : List.filter (fun v => v.uid == u.uid) (v :: rest)
          = v :: List.filter (fun v => v.uid == u.uid) rest := by
        rw [List.filter_cons]
        simp [hv]
      rw [hfc] at hfu
      have hvu : v = u := (List.cons.inj hfu).1
      have hrest : List.filter (fun v => v.uid == u.uid) rest = [] :=
        (List.cons.inj hfu).2
      have hnomatch : ∀ w ∈ rest, w.uid ≠ u.uid := by
        intro w hw hwx
        have : w ∈ List.filter (fun v => v.uid == u.uid) rest :=
          List.mem_filter.mpr ⟨hw, by simp [hwx]⟩
        rw [hrest] at this
        simp at this
      subst hvu
      rw [validate_fold_ne lookup cap rest v.uid e.toggl_id _ hnomatch]
      exact validate_user_step lookup cap v acc entries0 e hconn hrow hs hp hfilt hcap
    · have hfc : List.filter (fun v => v.uid == u.uid) (v :: rest)
          = List.filter (fun v => v.uid == u.uid) rest := by
        rw [List.filter_cons]
        simp [hv]
      rw [hfc] at hfu
      apply ih (validate_user_entries lookup cap v acc) entries0 hfu
      · rw [validate_user_entries_ne lookup cap v acc u.uid e.toggl_id hv]
        exact hrow
      · rw [validate_user_entries_filter_cand lookup cap v acc u hv]
        exact hfilt
      · exact hcap

/-- Claim C8: on a run of the periodic reconciliation, every synced and not
pending-deletion entry of a connected user is checked against the remote
event addressed by its stable external key: an absent event or a summary that
does not match the expected rendering of the local description clears the
synced flag; a per-entry lookup failure is logged and skipped, leaving the
flag set and not aborting the rest of the batch (the other entries of the run
are reconciled by their own lookup outcomes, as the theorem holds for every
such entry whatever the lookup returns elsewhere). -/
theorem C8_reconciliation (lookup : Nat → String → Except String (Option RemoteEvent))
    (cap : Nat) (users : List SyncUser) (u : SyncUser)
    (entries : List (Nat × TogglTimeEntry)) (e : TogglTimeEntry)
    (hfu : users.filter (fun v => v.uid == u.uid) = [u])
    (hconn : u.connected = true)
    (hrow : lookupRow u.uid e.toggl_id entries = some (u.uid, e))
    (hs : e.synced = true)
    (hp : e.pending_deletion = false)
    (hcap : (entries.filter (fun p =>
      p.1 == u.uid && p.2.synced && !p.2.pending_deletion)).length ≤ cap) :
    (lookup u.uid e.gcal_event_id = Except.ok none →
        lookupRow u.uid e.toggl_id (validate_synced_events lookup cap users entries)
          = some (u.uid, { e with synced := false }))
    ∧ (∀ ev, lookup u.uid e.gcal_event_id = Except.ok (some ev) →
        ev.summary ≠ expected_summary e →
        lookupRow u.uid e.toggl_id (validate_synced_events lookup cap users entries)
          = some (u.uid, { e with synced := false }))
    ∧ (∀ ev, lookup u.uid e.gcal_event_id = Except.ok (some ev) →
        ev.summary = expected_summary e →
        lookupRow u.uid e.toggl_id (validate_synced_events lookup cap users entries)
          = some (u.uid, e))
    ∧ (∀ msg, lookup u.uid e.gcal_event_id = Except.error msg →
        lookupRow u.uid e.toggl_id (validate_synced_events lookup cap users entries)
          = some (u.uid, e)) := by
  have hmain : lookupRow u.uid e.toggl_id
      (validate_synced_events lookup cap users entries)
      = some (u.uid, reconcileEntry lookup u e) :=
    validate_fold_row lookup cap u e hconn hs hp users entries entries hfu hrow
      rfl hcap
  refine ⟨?_, ?_, ?_, ?_⟩
  · intro h
    rw [hmain]
    simp [reconcileEntry, h]
  · intro ev h hne
    rw [hmain]
    simp [reconcileEntry, h, hne]
  · intro ev h heq
    rw [hmain]
    simp [reconcileEntry, h, heq]
  · intro msg h
    rw [hmain]
    simp [reconcileEntry, h]

/-- Witness for C8: one connected user, one synced entry, a remote lookup that
reports the event gone; the reconciliation run clears the synced flag. -/
theorem C8_witness :
    lookupRow 1 5 (validate_synced_events (fun _ _ => Except.ok none) 10
        [userC8] [(1, entryC8)])
      = some (1, { entryC8 with synced := false }) := by
  exact (C8_reconciliation (fun _ _ => Except.ok none) 10 [userC8] userC8
      [(1, entryC8)] entryC8 (by decide) (by decide) (by decide) (by decide)
      (by decide) (by decide)).1 rfl

/-- Counterexample for C7: a workspace with a secret on file, a request whose
signature header is absent; the view does not answer 401 Unauthorized as the
spec states, it raises an unhandled AttributeError (a 500 server error),
because verify_signature is called with None and None.startswith raises. -/
theorem C7_counterexample :
    toggl_webhook hmac0 [wsC7] "tok" reqC7none
        = ⟨WebhookOutcome.error "AttributeError", [], []⟩
      ∧ (toggl_webhook hmac0 [wsC7] "tok" reqC7none).outcome
        ≠ WebhookOutcome.http 401 :=
  ⟨rfl, by decide⟩

/-- Claim C7 (amended): the webhook endpoint answers 404 on an unknown route
token, 400 on a body that fails to parse as JSON, and, when the workspace has
a truthy secret, 401 on a present signature header that fails verification;
a missing signature header, however, raises an unhandled AttributeError (a
500 server error) instead of the 401 the spec states; and a payload carrying
an entry id with an action other than created, updated or deleted is accepted
and ignored with the ok body, no store mutation and no queued task. -/
theorem C7_signature_and_routing (hmacHex : String → String → String)
    (workspaces : List WebhookWorkspace) (token : String) (req : WebhookRequest)
    (ws : WebhookWorkspace) :
    (workspaces.find? (fun w => w.webhook_token == token) = none →
      toggl_webhook hmacHex workspaces token req = ⟨.http 404, [], []⟩)
    ∧ (workspaces.find? (fun w => w.webhook_token == token) = some ws →
      req.body_json = none →
      toggl_webhook hmacHex workspaces token req = ⟨.http 400, [], []⟩)
    ∧ (∀ secret sig payload,
      workspaces.find? (fun w => w.webhook_token == token) = some ws →
      req.body_json = some payload →
      truthyStr ws.webhook_secret = some secret →
      req.sig_header = some sig →
      verify_signature hmacHex req.body_raw sig secret = false →
      toggl_webhook hmacHex workspaces token req = ⟨.http 401, [], []⟩)
    ∧ (∀ secret payload,
      workspaces.find? (fun w => w.webhook_token == token) = some ws →
      req.body_json = some payload →
      truthyStr ws.webhook_secret = some secret →
      req.sig_header = none →
      toggl_webhook hmacHex workspaces token req
        = ⟨.error "AttributeError", [], []⟩)
    ∧ (∀ payload fs eid a,
      workspaces.find? (fun w => w.webhook_token == token) = some ws →
      req.body_json = some payload →
      truthyStr ws.webhook_secret = none →
      payload.getField "payload" = some (JVal.jobj fs) →
      JVal.truthyId ((JVal.jobj fs).getField "id") = some eid →
      ((payload.getField "metadata").getD (JVal.jobj [])).getField "action"
        = some (JVal.jstr a) →
      a.toLower ≠ "created" → a.toLower ≠ "updated" → a.toLower ≠ "deleted" →
      toggl_webhook hmacHex workspaces token req = ⟨.okJson, [], []⟩) := by
  refine ⟨?_, ?_, ?_, ?_, ?_⟩
  · intro hfind
    simp [toggl_webhook, hfind]
  · intro hfind hbody
    simp [toggl_webhook, hfind, hbody]
  · intro secret sig payload hfind hbody hsec hsig hver
    simp [toggl_webhook, hfind, hbody, hsec, hsig, hver]
  · intro secret payload hfind hbody hsec hsig
    simp [toggl_webhook, hfind, hbody, hsec, hsig]
  · intro payload fs eid a hfind hbody hsec hpay hid hact hne1 hne2 hne3
    simp [toggl_webhook, hfind, hbody, hsec, hpay, hid, hact, hne1, hne2, hne3]

/-- Witness for C7: a present but wrong signature header on a workspace with a
secret is answered 401, by the theorem at a concrete request. -/
theorem C7_witness :
    toggl_webhook hmac0 [wsC7] "tok" reqC7 = ⟨.http 401, [], []⟩ := by
  exact (C7_signature_and_routing hmac0 [wsC7] "tok" reqC7 wsC7).2.2.1
    "sec" "bad" (JVal.jobj []) rfl rfl rfl rfl rfl

end TogglSync
